import Mathlib

/-!
# Trace-context propagation helpers (`pkg/tracing/utils.go`)

A shallow embedding of the tracing utilities of the repository and of the library
functions they call, followed by the theorems that settle the specification's claims.

Conventions of the embedding

* A Go `string` or `[]byte` is a list of bytes (`GoString`); bytes and runes are natural
  numbers.  `[]byte(s)` and `string(b)` are the identity.
* A Go map is an association list with distinct keys.  The order of the list is the order in
  which a `range` loop visits the entries in the run under consideration, so a statement
  about every list is a statement about every iteration order.
* A Go function returning `(value, error)` returns `Except GoError value`; a run-time panic is
  a value of `Except GoPanic`.
* The global tracer is an explicit record of operations that thread the tracer's state.
* The parts of the Go standard library that are tables or depend on the release (case
  folding and lower-casing of runes above ASCII, the short JSON escapes) are a parameter,
  `GoRuntime`.
-/

namespace Tracing

/-! ## Strings, errors, panics -/

/-- A Go `string` or `[]byte`: a finite sequence of bytes, each a natural number below 256. -/
abbrev GoString := List Nat

/-- The bytes of an ASCII string literal. -/
def ascii (s : String) : GoString := s.toList.map Char.toNat

/-- Go `error` values that the embedded functions can return. -/
inductive GoError where
  /-- `errors.New(msg)`. -/
  | errorsNew (msg : String)
  /-- A `*json.SyntaxError` (input is not well-formed JSON). -/
  | SyntaxError
  /-- A `*json.UnmarshalTypeError` (a JSON value does not fit the Go target type). -/
  | UnmarshalTypeError
  /-- The panic `JSON decoder out of sync`, which the decoder raises when the input it walks
  was not accepted by the scanner. -/
  | phasePanic
  deriving DecidableEq, Repr

deriving instance DecidableEq for Except

/-- Run-time panics of the Go program. -/
inductive GoPanic where
  /-- `index out of range [index] with length len`. -/
  | indexOutOfRange (index len : Nat)
  deriving DecidableEq, Repr

/-! ## Package `unicode/utf8` and `unicode/utf16` -/

/-- The constant `utf8.RuneError` (U+FFFD), also `unicode.ReplacementChar`. -/
def RuneError : Nat := 0xFFFD

/-- The constant `utf8.RuneSelf`: bytes below it are single-byte runes. -/
def RuneSelf : Nat := 0x80

/-- The constant `unicode.MaxRune`. -/
def MaxRune : Nat := 0x10FFFF

/-- The function `utf8.DecodeRune` (and `DecodeRuneInString`): the first rune of `p` and its
width in bytes; `(RuneError, 0)` on empty input and `(RuneError, 1)` on an invalid
encoding. -/
def DecodeRune : GoString → Nat × Nat
  | [] => (RuneError, 0)
  | p0 :: rest =>
    if p0 < 0x80 then (p0, 1)
    else if p0 < 0xC2 ∨ 0xF4 < p0 then (RuneError, 1)
    else
      let sz := if p0 < 0xE0 then 2 else if p0 < 0xF0 then 3 else 4
      let lo := if p0 = 0xE0 then 0xA0 else if p0 = 0xF0 then 0x90 else 0x80
      let hi := if p0 = 0xED then 0x9F else if p0 = 0xF4 then 0x8F else 0xBF
      if rest.length + 1 < sz then (RuneError, 1)
      else
        match rest with
        | [] => (RuneError, 1)
        | b1 :: rest1 =>
          if b1 < lo ∨ hi < b1 then (RuneError, 1)
          else if sz ≤ 2 then ((p0 % 32) * 64 + b1 % 64, 2)
          else
            match rest1 with
            | [] => (RuneError, 1)
            | b2 :: rest2 =>
              if b2 < 0x80 ∨ 0xBF < b2 then (RuneError, 1)
              else if sz ≤ 3 then ((p0 % 16) * 4096 + (b1 % 64) * 64 + b2 % 64, 3)
              else
                match rest2 with
                | [] => (RuneError, 1)
                | b3 :: _ =>
                  if b3 < 0x80 ∨ 0xBF < b3 then (RuneError, 1)
                  else ((p0 % 8) * 262144 + (b1 % 64) * 4096 + (b2 % 64) * 64 + b3 % 64, 4)

/-- The function `utf8.EncodeRune` (`AppendRune`): the UTF-8 encoding of `r`; surrogates and
values above `MaxRune` are encoded as `RuneError`. -/
def EncodeRune (r : Nat) : GoString :=
  if r ≤ 0x7F then [r]
  else if r ≤ 0x7FF then [0xC0 + r / 64, 0x80 + r % 64]
  else if MaxRune < r ∨ (0xD800 ≤ r ∧ r ≤ 0xDFFF) then [0xEF, 0xBF, 0xBD]
  else if r ≤ 0xFFFF then [0xE0 + r / 4096, 0x80 + (r / 64) % 64, 0x80 + r % 64]
  else [0xF0 + r / 262144, 0x80 + (r / 4096) % 64, 0x80 + (r / 64) % 64, 0x80 + r % 64]

/-- The runes visited by `for _, r := range s`: invalid bytes yield `RuneError` one byte at a
time.  The first argument bounds the number of iterations; `s.length` is enough. -/
def rangeRunes : Nat → GoString → List Nat
  | 0, _ => []
  | fuel + 1, s =>
    match s with
    | [] => []
    | _ :: _ => (DecodeRune s).1 :: rangeRunes fuel (s.drop (DecodeRune s).2)

/-- The function `utf16.IsSurrogate`. -/
def IsSurrogate (r : Nat) : Bool := 0xD800 ≤ r ∧ r < 0xE000

/-- The function `utf16.DecodeRune`: the rune of a surrogate pair, or U+FFFD when the pair
is not valid. -/
def utf16DecodeRune (r1 r2 : Nat) : Nat :=
  if 0xD800 ≤ r1 ∧ r1 < 0xDC00 ∧ 0xDC00 ≤ r2 ∧ r2 < 0xE000 then
    (r1 - 0xD800) * 1024 + (r2 - 0xDC00) + 0x10000
  else RuneError

/-! ## Package `unicode` and `strings` -/

/-- The parts of the Go standard library that are tables or depend on the release: the
tables of package `unicode` for runes above `unicode.MaxASCII`, and the escapes that
`encoding/json` writes. -/
structure GoRuntime where
  /-- The function `unicode.SimpleFold` on runes above `MaxASCII`. -/
  SimpleFold : Nat → Nat
  /-- The function `unicode.ToLower` on runes above `MaxASCII`. -/
  ToLower : Nat → Nat
  /-- Whether `encoding/json` writes the bytes 0x08 and 0x0C as `\b` and `\f` (Go 1.22 and
  later) or as `\u0008` and `\u000c` (earlier releases). -/
  jsonShortEscapes : Bool

/-- A run time whose tables leave every rune above ASCII alone; used to evaluate examples. -/
def exampleRuntime : GoRuntime :=
  { SimpleFold := fun r => r, ToLower := fun r => r, jsonShortEscapes := false }

/-- The table `unicode.asciiFold`: letters swap case, except that `k` and `s` continue to
the Kelvin sign and the long s. -/
def asciiFold (r : Nat) : Nat :=
  if 0x41 ≤ r ∧ r ≤ 0x5A then r + 0x20
  else if r = 0x6B then 0x212A
  else if r = 0x73 then 0x017F
  else if 0x61 ≤ r ∧ r ≤ 0x7A then r - 0x20
  else r

/-- The function `unicode.SimpleFold`. -/
def SimpleFold (rt : GoRuntime) (r : Nat) : Nat :=
  if MaxRune < r then r
  else if r < 128 then asciiFold r
  else rt.SimpleFold r

/-- The loop `for r != sr && r < tr { r = unicode.SimpleFold(r) }` of `strings.EqualFold`. -/
def foldOrbit (rt : GoRuntime) (sr tr : Nat) : Nat → Nat → Nat
  | 0, r => r
  | fuel + 1, r => if r ≠ sr ∧ r < tr then foldOrbit rt sr tr fuel (SimpleFold rt r) else r

/-- The general path of `strings.EqualFold` (label `hasUnicode`): compares rune by rune. -/
def equalFoldRunes (rt : GoRuntime) : Nat → GoString → GoString → Bool
  | 0, s, t => s.length == 0 && t.length == 0
  | fuel + 1, s, t =>
    match s with
    | [] => t.length == 0
    | _ :: _ =>
      let sr := (DecodeRune s).1
      match t with
      | [] => false
      | t0 :: _ =>
        let trsize := if t0 < RuneSelf then (t0, 1) else DecodeRune t
        let tr := trsize.1
        let next := equalFoldRunes rt fuel (s.drop (DecodeRune s).2) (t.drop trsize.2)
        if tr = sr then next
        else
          let lo := if tr < sr then tr else sr
          let hi := if tr < sr then sr else tr
          if hi < RuneSelf then
            if 0x41 ≤ lo ∧ lo ≤ 0x5A ∧ hi = lo + 0x20 then next else false
          else
            if foldOrbit rt lo hi (MaxRune + 1) (SimpleFold rt lo) = hi then next else false

/-- The function `strings.EqualFold`: equality under simple Unicode case folding.  The ASCII
fast path runs while both strings show ASCII bytes. -/
def EqualFold (rt : GoRuntime) : GoString → GoString → Bool
  | sr :: s, tr :: t =>
    if RuneSelf ≤ sr ∨ RuneSelf ≤ tr then equalFoldRunes rt (s.length + 1) (sr :: s) (tr :: t)
    else if tr = sr then EqualFold rt s t
    else
      let lo := if tr < sr then tr else sr
      let hi := if tr < sr then sr else tr
      if 0x41 ≤ lo ∧ lo ≤ 0x5A ∧ hi = lo + 0x20 then EqualFold rt s t else false
  | [], t => t.length == 0
  | _ :: _, [] => false

/-- Lower-casing of an ASCII byte or rune: `A` to `Z` move to `a` to `z`. -/
def asciiToLower (c : Nat) : Nat := if 0x41 ≤ c ∧ c ≤ 0x5A then c + 0x20 else c

/-- The function `unicode.ToLower`. -/
def unicodeToLower (rt : GoRuntime) (r : Nat) : Nat :=
  if r ≤ 0x7F then asciiToLower r else rt.ToLower r

/-- The function `strings.ToLower`: ASCII-only strings are lower-cased byte by byte, other
strings go through `strings.Map(unicode.ToLower, s)`, which re-encodes every rune. -/
def ToLower (rt : GoRuntime) (s : GoString) : GoString :=
  if s.all (fun c => c < RuneSelf) then
    s.map asciiToLower
  else
    (rangeRunes s.length s).flatMap (fun c => EncodeRune (unicodeToLower rt c))

/-! ## Go maps -/

/-- The map read `m[k]` with its presence flag. -/
def mapGet {α : Type} : List (GoString × α) → GoString → Option α
  | [], _ => none
  | (k, v) :: rest, key => if k = key then some v else mapGet rest key

/-- The map write `m[k] = v`: replaces the value of an existing key, adds a new key. -/
def mapSet {α : Type} : List (GoString × α) → GoString → α → List (GoString × α)
  | [], key, val => [(key, val)]
  | (k, v) :: rest, key, val =>
    if k = key then (k, val) :: rest else (k, v) :: mapSet rest key val

/-- The keys of a map are pairwise distinct. -/
def NodupKeys {α : Type} (m : List (GoString × α)) : Prop := (m.map Prod.fst).Nodup

/-- Two maps hold the same key/value pairs. -/
def SameEntries {α : Type} (m₁ m₂ : List (GoString × α)) : Prop :=
  ∀ k, mapGet m₁ k = mapGet m₂ k

/-- The type `opentracing.TextMapCarrier`, a Go `map[string]string`. -/
inductive TextMapCarrier where
  /-- The nil map. -/
  | nil
  /-- A map made by `make` or a literal, with its entries. -/
  | map (entries : List (GoString × GoString))
  deriving DecidableEq, Repr

/-- The entries of a carrier; the nil map has none. -/
def TextMapCarrier.entries : TextMapCarrier → List (GoString × GoString)
  | .nil => []
  | .map entries => entries

/-- The loop of `TextMapCarrier.ForeachKey`: calls the handler on each entry and stops at
the first error.  The handler's captured variables are the state `σ`. -/
def foreachKeyLoop {σ ε : Type} (handler : σ → GoString → GoString → σ × Option ε) :
    List (GoString × GoString) → σ → σ × Option ε
  | [], s => (s, none)
  | (k, v) :: rest, s =>
    match handler s k v with
    | (s', some err) => (s', some err)
    | (s', none) => foreachKeyLoop handler rest s'

/-- The method `TextMapCarrier.ForeachKey`. -/
def TextMapCarrier.ForeachKey {σ ε : Type} (c : TextMapCarrier)
    (handler : σ → GoString → GoString → σ × Option ε) (init : σ) : σ × Option ε :=
  foreachKeyLoop handler c.entries init

/-- The method `TextMapCarrier.Set` (`c[key] = val`) on a non-nil carrier. -/
def TextMapCarrier.Set (c : TextMapCarrier) (key val : GoString) : TextMapCarrier :=
  .map (mapSet c.entries key val)

/-! ## Package `encoding/json`: the encoder for `map[string]string` -/

/-- The digit `"0123456789abcdef"[n]` of the encoder's table `hex`. -/
def hex (n : Nat) : Nat := if n < 10 then 0x30 + n else 0x57 + n

/-- The table `htmlSafeSet`: the ASCII bytes that `json.Marshal` writes unescaped, that is all
from space on except the double quote, `&`, `<`, `>` and the backslash. -/
def htmlSafeSet (b : Nat) : Bool :=
  0x20 ≤ b ∧ b < 0x80 ∧ b ≠ 0x22 ∧ b ≠ 0x26 ∧ b ≠ 0x3C ∧ b ≠ 0x3E ∧ b ≠ 0x5C

/-- The escape that the encoder writes for an ASCII byte outside `htmlSafeSet`: a two-byte
escape for the quote, the backslash, `\n`, `\r`, `\t` (and, from Go 1.22 on, `\b` and
`\f`), and `\u00XY` for every other byte. -/
def escapeByte (shortEscapes : Bool) (b : Nat) : GoString :=
  0x5C ::
    (if b = 0x5C ∨ b = 0x22 then [b]
     else if shortEscapes = true ∧ b = 0x08 then [0x62]
     else if shortEscapes = true ∧ b = 0x0C then [0x66]
     else if b = 0x0A then [0x6E]
     else if b = 0x0D then [0x72]
     else if b = 0x09 then [0x74]
     else [0x75, 0x30, 0x30, hex (b / 16), hex (b % 16)])

/-- The loop of `encodeState.string(s, escapeHTML = true)`: the bytes written between the two
quotes.  The first argument bounds the number of iterations; `s.length` is enough. -/
def encodeStringLoop (rt : GoRuntime) : Nat → GoString → GoString
  | 0, _ => []
  | fuel + 1, s =>
    match s with
    | [] => []
    | b :: rest =>
      if b < RuneSelf then
        if htmlSafeSet b then b :: encodeStringLoop rt fuel rest
        else escapeByte rt.jsonShortEscapes b ++ encodeStringLoop rt fuel rest
      else
        let c := (DecodeRune s).1
        let size := (DecodeRune s).2
        if c = RuneError ∧ size = 1 then
          ascii "\\ufffd" ++ encodeStringLoop rt fuel (s.drop size)
        else if c = 0x2028 ∨ c = 0x2029 then
          ascii "\\u202" ++ hex (c % 16) :: encodeStringLoop rt fuel (s.drop size)
        else s.take size ++ encodeStringLoop rt fuel (s.drop size)

/-- The method `encodeState.string`: a JSON string literal for `s`. -/
def encodeString (rt : GoRuntime) (s : GoString) : GoString :=
  0x22 :: (encodeStringLoop rt s.length s ++ [0x22])

/-- Go's `<` on strings: byte-wise lexicographic order. -/
def stringLess : GoString → GoString → Bool
  | [], [] => false
  | [], _ :: _ => true
  | _ :: _, [] => false
  | a :: as, b :: bs => if a < b then true else if b < a then false else stringLess as bs

/-- The loop of the map encoder over the sorted entries: a comma before every entry but the
first (`first` is `i == 0`), then key, colon, value. -/
def encodeMapEntries (rt : GoRuntime) : Bool → List (GoString × GoString) → GoString
  | _, [] => []
  | first, kv :: rest =>
    (if first then [] else [0x2C]) ++
      (encodeString rt kv.1 ++ 0x3A :: (encodeString rt kv.2 ++ encodeMapEntries rt false rest))

/-- The function `json.Marshal` on a `map[string]string`: `null` for the nil map, otherwise
the object of the entries sorted by key.  It has no failing case for this type. -/
def jsonMarshal (rt : GoRuntime) (v : TextMapCarrier) : Except GoError GoString :=
  match v with
  | .nil => .ok (ascii "null")
  | .map entries =>
    let sv := entries.insertionSort (fun a b => stringLess b.1 a.1 = false)
    .ok (0x7B :: (encodeMapEntries rt true sv ++ [0x7D]))

/-! ## Package `encoding/json`: the scanner (`scanner.go`) -/

/-- The entries of the scanner's `parseState` stack. -/
inductive ParseState where
  | parseObjectKey
  | parseObjectValue
  | parseArrayValue
  deriving DecidableEq, Repr

/-- The scanner's step functions (the values of its field `step`). -/
inductive StepFn where
  | stateBeginValueOrEmpty | stateBeginValue | stateBeginStringOrEmpty | stateBeginString
  | stateEndValue | stateEndTop
  | stateInString | stateInStringEsc
  | stateInStringEscU | stateInStringEscU1 | stateInStringEscU12 | stateInStringEscU123
  | stateNeg | state1 | state0 | stateDot | stateDot0 | stateE | stateESign | stateE0
  | stateT | stateTr | stateTru
  | stateF | stateFa | stateFal | stateFals
  | stateN | stateNu | stateNul
  | stateError
  deriving DecidableEq, Repr

/-- The scanner's return codes. -/
inductive ScanOp where
  | scanContinue | scanBeginLiteral | scanBeginObject | scanObjectKey | scanObjectValue
  | scanEndObject | scanBeginArray | scanArrayValue | scanEndArray | scanSkipSpace
  | scanEnd | scanError
  deriving DecidableEq, Repr

/-- The struct `scanner`.  The stack `parseState` has its top at the head of the list;
`err` says whether the field `err` is set. -/
structure Scanner where
  step : StepFn
  parseState : List ParseState
  err : Bool
  endTop : Bool
  deriving DecidableEq, Repr

/-- The constant `maxNestingDepth`. -/
def maxNestingDepth : Nat := 10000

/-- The function `isSpace`. -/
def isSpace (c : Nat) : Bool := c = 0x20 ∨ c = 0x09 ∨ c = 0x0D ∨ c = 0x0A

/-- Whether `c` is a decimal digit from `lo` to 9. -/
def isDigitFrom (lo c : Nat) : Bool := 0x30 + lo ≤ c ∧ c ≤ 0x39

/-- Whether `c` is a hexadecimal digit. -/
def isHexDigit (c : Nat) : Bool :=
  (0x30 ≤ c ∧ c ≤ 0x39) ∨ (0x61 ≤ c ∧ c ≤ 0x66) ∨ (0x41 ≤ c ∧ c ≤ 0x46)

/-- The method `scanner.reset`. -/
def Scanner.reset : Scanner :=
  { step := .stateBeginValue, parseState := [], err := false, endTop := false }

/-- The method `scanner.error`: records a syntax error and kills the scanner. -/
def Scanner.error (s : Scanner) : Scanner × ScanOp :=
  ({ s with step := .stateError, err := true }, .scanError)

/-- Sets the step function and returns `op`. -/
def Scanner.goto (s : Scanner) (step : StepFn) (op : ScanOp) : Scanner × ScanOp :=
  ({ s with step := step }, op)

/-- The method `scanner.pushParseState`. -/
def Scanner.pushParseState (s : Scanner) (newParseState : ParseState) (successState : ScanOp) :
    Scanner × ScanOp :=
  let s1 := { s with parseState := newParseState :: s.parseState }
  if s1.parseState.length ≤ maxNestingDepth then (s1, successState) else s1.error

/-- The method `scanner.popParseState`. -/
def Scanner.popParseState (s : Scanner) : Scanner :=
  let ps := s.parseState.tail
  if ps.length = 0 then { s with parseState := ps, step := .stateEndTop, endTop := true }
  else { s with parseState := ps, step := .stateEndValue }

/-- The assignment `s.parseState[n-1] = p`. -/
def Scanner.setTop (s : Scanner) (p : ParseState) : Scanner :=
  { s with parseState := p :: s.parseState.tail }

/-- The step function `stateEndTop`: only space may follow the top-level value.  It reports
`scanEnd` even when it records the error; the next step reports it. -/
def stateEndTop (s : Scanner) (c : Nat) : Scanner × ScanOp :=
  if isSpace c then (s, .scanEnd) else ((s.error).1, .scanEnd)

/-- The step function `stateEndValue`. -/
def stateEndValue (s : Scanner) (c : Nat) : Scanner × ScanOp :=
  match s.parseState with
  | [] => stateEndTop { s with step := .stateEndTop, endTop := true } c
  | ps :: _ =>
    if isSpace c then s.goto .stateEndValue .scanSkipSpace
    else
      match ps with
      | .parseObjectKey =>
        if c = 0x3A then (s.setTop .parseObjectValue).goto .stateBeginValue .scanObjectKey
        else s.error
      | .parseObjectValue =>
        if c = 0x2C then (s.setTop .parseObjectKey).goto .stateBeginString .scanObjectValue
        else if c = 0x7D then (s.popParseState, .scanEndObject)
        else s.error
      | .parseArrayValue =>
        if c = 0x2C then s.goto .stateBeginValue .scanArrayValue
        else if c = 0x5D then (s.popParseState, .scanEndArray)
        else s.error

/-- The step function `stateBeginValue`. -/
def stateBeginValue (s : Scanner) (c : Nat) : Scanner × ScanOp :=
  if isSpace c then (s, .scanSkipSpace)
  else if c = 0x7B then
    Scanner.pushParseState { s with step := .stateBeginStringOrEmpty } .parseObjectKey
      .scanBeginObject
  else if c = 0x5B then
    Scanner.pushParseState { s with step := .stateBeginValueOrEmpty } .parseArrayValue
      .scanBeginArray
  else if c = 0x22 then s.goto .stateInString .scanBeginLiteral
  else if c = 0x2D then s.goto .stateNeg .scanBeginLiteral
  else if c = 0x30 then s.goto .state0 .scanBeginLiteral
  else if c = 0x74 then s.goto .stateT .scanBeginLiteral
  else if c = 0x66 then s.goto .stateF .scanBeginLiteral
  else if c = 0x6E then s.goto .stateN .scanBeginLiteral
  else if isDigitFrom 1 c then s.goto .state1 .scanBeginLiteral
  else s.error

/-- The step function `stateBeginValueOrEmpty`. -/
def stateBeginValueOrEmpty (s : Scanner) (c : Nat) : Scanner × ScanOp :=
  if isSpace c then (s, .scanSkipSpace)
  else if c = 0x5D then stateEndValue s c
  else stateBeginValue s c

/-- The step function `stateBeginString`. -/
def stateBeginString (s : Scanner) (c : Nat) : Scanner × ScanOp :=
  if isSpace c then (s, .scanSkipSpace)
  else if c = 0x22 then s.goto .stateInString .scanBeginLiteral
  else s.error

/-- The step function `stateBeginStringOrEmpty`. -/
def stateBeginStringOrEmpty (s : Scanner) (c : Nat) : Scanner × ScanOp :=
  if isSpace c then (s, .scanSkipSpace)
  else if c = 0x7D then stateEndValue (s.setTop .parseObjectValue) c
  else stateBeginString s c

/-- The step function `stateInString`. -/
def stateInString (s : Scanner) (c : Nat) : Scanner × ScanOp :=
  if c = 0x22 then s.goto .stateEndValue .scanContinue
  else if c = 0x5C then s.goto .stateInStringEsc .scanContinue
  else if c < 0x20 then s.error
  else (s, .scanContinue)

/-- The step function `stateInStringEsc`. -/
def stateInStringEsc (s : Scanner) (c : Nat) : Scanner × ScanOp :=
  if c = 0x62 ∨ c = 0x66 ∨ c = 0x6E ∨ c = 0x72 ∨ c = 0x74 ∨ c = 0x5C ∨ c = 0x2F ∨ c = 0x22 then
    s.goto .stateInString .scanContinue
  else if c = 0x75 then s.goto .stateInStringEscU .scanContinue
  else s.error

/-- The step functions `stateInStringEscU`, `...U1`, `...U12`, `...U123`: one hexadecimal
digit, then on to `next`. -/
def stateHexDigit (next : StepFn) (s : Scanner) (c : Nat) : Scanner × ScanOp :=
  if isHexDigit c then s.goto next .scanContinue else s.error

/-- The step function `stateE0`. -/
def stateE0 (s : Scanner) (c : Nat) : Scanner × ScanOp :=
  if isDigitFrom 0 c then (s, .scanContinue) else stateEndValue s c

/-- The step function `stateESign`. -/
def stateESign (s : Scanner) (c : Nat) : Scanner × ScanOp :=
  if isDigitFrom 0 c then s.goto .stateE0 .scanContinue else s.error

/-- The step function `stateE`. -/
def stateE (s : Scanner) (c : Nat) : Scanner × ScanOp :=
  if c = 0x2B ∨ c = 0x2D then s.goto .stateESign .scanContinue else stateESign s c

/-- The step function `stateDot0`. -/
def stateDot0 (s : Scanner) (c : Nat) : Scanner × ScanOp :=
  if isDigitFrom 0 c then (s, .scanContinue)
  else if c = 0x65 ∨ c = 0x45 then s.goto .stateE .scanContinue
  else stateEndValue s c

/-- The step function `stateDot`. -/
def stateDot (s : Scanner) (c : Nat) : Scanner × ScanOp :=
  if isDigitFrom 0 c then s.goto .stateDot0 .scanContinue else s.error

/-- The step function `state0`. -/
def state0 (s : Scanner) (c : Nat) : Scanner × ScanOp :=
  if c = 0x2E then s.goto .stateDot .scanContinue
  else if c = 0x65 ∨ c = 0x45 then s.goto .stateE .scanContinue
  else stateEndValue s c

/-- The step function `state1`. -/
def state1 (s : Scanner) (c : Nat) : Scanner × ScanOp :=
  if isDigitFrom 0 c then s.goto .state1 .scanContinue else state0 s c

/-- The step function `stateNeg`. -/
def stateNeg (s : Scanner) (c : Nat) : Scanner × ScanOp :=
  if c = 0x30 then s.goto .state0 .scanContinue
  else if isDigitFrom 1 c then s.goto .state1 .scanContinue
  else s.error

/-- The step functions inside the literals `true`, `false` and `null`: the byte `want`, then
on to `next`. -/
def stateLetter (want : Nat) (next : StepFn) (s : Scanner) (c : Nat) : Scanner × ScanOp :=
  if c = want then s.goto next .scanContinue else s.error

/-- The call `s.step(s, c)`: dispatches on the current step function. -/
def Scanner.doStep (s : Scanner) (c : Nat) : Scanner × ScanOp :=
  match s.step with
  | .stateBeginValueOrEmpty => stateBeginValueOrEmpty s c
  | .stateBeginValue => stateBeginValue s c
  | .stateBeginStringOrEmpty => stateBeginStringOrEmpty s c
  | .stateBeginString => stateBeginString s c
  | .stateEndValue => stateEndValue s c
  | .stateEndTop => stateEndTop s c
  | .stateInString => stateInString s c
  | .stateInStringEsc => stateInStringEsc s c
  | .stateInStringEscU => stateHexDigit .stateInStringEscU1 s c
  | .stateInStringEscU1 => stateHexDigit .stateInStringEscU12 s c
  | .stateInStringEscU12 => stateHexDigit .stateInStringEscU123 s c
  | .stateInStringEscU123 => stateHexDigit .stateInString s c
  | .stateNeg => stateNeg s c
  | .state1 => state1 s c
  | .state0 => state0 s c
  | .stateDot => stateDot s c
  | .stateDot0 => stateDot0 s c
  | .stateE => stateE s c
  | .stateESign => stateESign s c
  | .stateE0 => stateE0 s c
  | .stateT => stateLetter 0x72 .stateTr s c
  | .stateTr => stateLetter 0x75 .stateTru s c
  | .stateTru => stateLetter 0x65 .stateEndValue s c
  | .stateF => stateLetter 0x61 .stateFa s c
  | .stateFa => stateLetter 0x6C .stateFal s c
  | .stateFal => stateLetter 0x73 .stateFals s c
  | .stateFals => stateLetter 0x65 .stateEndValue s c
  | .stateN => stateLetter 0x75 .stateNu s c
  | .stateNu => stateLetter 0x6C .stateNul s c
  | .stateNul => stateLetter 0x6C .stateEndValue s c
  | .stateError => (s, .scanError)

/-- The loop of `checkValid`: feeds the bytes to the scanner and stops at `scanError`. -/
def checkValidLoop (scan : Scanner) : GoString → Except GoError Scanner
  | [] => .ok scan
  | c :: data =>
    if (scan.doStep c).2 = .scanError then .error .SyntaxError
    else checkValidLoop (scan.doStep c).1 data

/-- The method `scanner.eof`. -/
def Scanner.eof (s : Scanner) : ScanOp :=
  if s.err then .scanError
  else if s.endTop then .scanEnd
  else if (s.doStep 0x20).1.endTop then .scanEnd
  else .scanError

/-- The function `checkValid`: `none` when `data` is one well-formed JSON value, otherwise
the syntax error. -/
def checkValid (data : GoString) : Option GoError :=
  match checkValidLoop Scanner.reset data with
  | .error err => some err
  | .ok scan => if scan.eof = .scanError then some .SyntaxError else none

/-! ## Package `encoding/json`: the decoder into a `map[string]string` (`decode.go`) -/

/-- The loop `d.scanWhile(scanSkipSpace)`: drops leading white space. -/
def skipSpace : GoString → GoString
  | [] => []
  | c :: rest => if isSpace c then skipSpace rest else c :: rest

/-- The string case of `d.rescanLiteral`, started after the opening quote: the bytes up to
and including the closing quote, and the bytes after it.  A backslash protects the byte
that follows it. -/
def rescanString : GoString → GoString × GoString
  | [] => ([], [])
  | c :: rest =>
    if c = 0x22 then ([c], rest)
    else if c = 0x5C then
      match rest with
      | [] => ([c], [])
      | e :: rest1 => (c :: e :: (rescanString rest1).1, (rescanString rest1).2)
    else (c :: (rescanString rest).1, (rescanString rest).2)

/-- The value of one hexadecimal digit, as read by `getu4`. -/
def hexValue (c : Nat) : Option Nat :=
  if 0x30 ≤ c ∧ c ≤ 0x39 then some (c - 0x30)
  else if 0x61 ≤ c ∧ c ≤ 0x66 then some (c - 0x61 + 10)
  else if 0x41 ≤ c ∧ c ≤ 0x46 then some (c - 0x41 + 10)
  else none

/-- The function `getu4`: the rune of a leading `\uXXXX`, or `none` (Go: `-1`). -/
def getu4 (s : GoString) : Option Nat :=
  match s with
  | b0 :: b1 :: c0 :: c1 :: c2 :: c3 :: _ =>
    if b0 ≠ 0x5C ∨ b1 ≠ 0x75 then none
    else
      match hexValue c0, hexValue c1, hexValue c2, hexValue c3 with
      | some d0, some d1, some d2, some d3 => some (((d0 * 16 + d1) * 16 + d2) * 16 + d3)
      | _, _, _, _ => none
  | _ => none

/-- Puts `pre` in front of a decoded rest, when there is one. -/
def consOut (pre : GoString) (rest : Option GoString) : Option GoString :=
  match rest with
  | some out => some (pre ++ out)
  | none => none

/-- The decoding loop of `unquoteBytes` over the bytes between the quotes; `none` is the
result `ok = false`.  (Go returns its input unchanged when it holds no backslash, quote,
control byte or invalid UTF-8; the loop gives the same bytes.)  The first argument bounds
the number of iterations; `s.length` is enough. -/
def unquoteLoop : Nat → GoString → Option GoString
  | 0, s => if s.length = 0 then some [] else none
  | fuel + 1, s =>
    match s with
    | [] => some []
    | c :: rest =>
      if c = 0x5C then
        match rest with
        | [] => none
        | e :: rest1 =>
          if e = 0x22 ∨ e = 0x5C ∨ e = 0x2F ∨ e = 0x27 then consOut [e] (unquoteLoop fuel rest1)
          else if e = 0x62 then consOut [0x08] (unquoteLoop fuel rest1)
          else if e = 0x66 then consOut [0x0C] (unquoteLoop fuel rest1)
          else if e = 0x6E then consOut [0x0A] (unquoteLoop fuel rest1)
          else if e = 0x72 then consOut [0x0D] (unquoteLoop fuel rest1)
          else if e = 0x74 then consOut [0x09] (unquoteLoop fuel rest1)
          else if e = 0x75 then
            match getu4 s with
            | none => none
            | some rr =>
              if IsSurrogate rr then
                let dec :=
                  match getu4 (s.drop 6) with
                  | some rr1 => utf16DecodeRune rr rr1
                  | none => RuneError
                if dec ≠ RuneError then consOut (EncodeRune dec) (unquoteLoop fuel (s.drop 12))
                else consOut (EncodeRune RuneError) (unquoteLoop fuel (s.drop 6))
              else consOut (EncodeRune rr) (unquoteLoop fuel (s.drop 6))
          else none
      else if c = 0x22 ∨ c < 0x20 then none
      else if c < RuneSelf then consOut [c] (unquoteLoop fuel rest)
      else consOut (EncodeRune (DecodeRune s).1) (unquoteLoop fuel (s.drop (DecodeRune s).2))

/-- The function `unquoteBytes`: the contents of a quoted JSON string literal. -/
def unquoteBytes (item : GoString) : Option GoString :=
  match item with
  | [] => none
  | q :: rest =>
    if q = 0x22 ∧ rest.getLast? = some 0x22 then unquoteLoop rest.length rest.dropLast
    else none

/-- The call `d.value(subv)` for a map element of type `string`, at the first byte of the
value: a string literal is unquoted, `null` leaves the zero value, and every other JSON
value (number, boolean, array, object) is an `UnmarshalTypeError`.  Returns the element and
the bytes after the value. -/
def decodeStringValue (data : GoString) : Except GoError (GoString × GoString) :=
  match data with
  | [] => .error .phasePanic
  | c :: rest =>
    if c = 0x22 then
      match unquoteBytes (c :: (rescanString rest).1) with
      | some str => .ok (str, (rescanString rest).2)
      | none => .error .phasePanic
    else if c = 0x6E then .ok ([], rest.drop 3)
    else .error .UnmarshalTypeError

/-- The loop of `d.object(v)` for a `map[string]string`, started after the opening brace:
reads key, colon, value, stores the pair (a repeated key overwrites), and goes on after a
comma until the closing brace.  A type error ends the decoding: the scanner has accepted
the whole input before, so the saved error is what `Unmarshal` returns.  The first argument
bounds the number of iterations; the length of the input is enough. -/
def decodeObject : Nat → GoString → List (GoString × GoString) →
    Except GoError (List (GoString × GoString))
  | 0, _, _ => .error .phasePanic
  | fuel + 1, data, m =>
    match skipSpace data with
    | [] => .error .phasePanic
    | c :: rest =>
      if c = 0x7D then .ok m
      else if c ≠ 0x22 then .error .phasePanic
      else
        match unquoteBytes (c :: (rescanString rest).1) with
        | none => .error .phasePanic
        | some key =>
          match skipSpace (rescanString rest).2 with
          | [] => .error .phasePanic
          | colon :: rest2 =>
            if colon ≠ 0x3A then .error .phasePanic
            else
              match decodeStringValue (skipSpace rest2) with
              | .error err => .error err
              | .ok (val, rest3) =>
                match skipSpace rest3 with
                | [] => .error .phasePanic
                | c1 :: rest4 =>
                  if c1 = 0x7D then .ok (mapSet m key val)
                  else if c1 = 0x2C then decodeObject fuel rest4 (mapSet m key val)
                  else .error .phasePanic

/-- The call `d.value(rv)` at the top level, for the target `&m` with `m` an empty non-nil
`map[string]string`: an object fills the map, `null` sets the map to nil, and every other
JSON value is an `UnmarshalTypeError`. -/
def decodeTop (data : GoString) : Except GoError TextMapCarrier :=
  match skipSpace data with
  | [] => .error .phasePanic
  | c :: rest =>
    if c = 0x7B then
      match decodeObject data.length rest [] with
      | .error err => .error err
      | .ok m => .ok (.map m)
    else if c = 0x6E then .ok .nil
    else .error .UnmarshalTypeError

/-- The function `json.Unmarshal(data, &m)` for `m := make(map[string]string)`: first
`checkValid`, then the decoding. -/
def jsonUnmarshal (data : GoString) : Except GoError TextMapCarrier :=
  match checkValid data with
  | some err => .error err
  | none => decodeTop data

/-! ## The Kafka client and the gRPC metadata -/

/-- The struct `kafka.Header`. -/
structure Header where
  Key : GoString
  Value : GoString
  deriving DecidableEq, Repr

/-- The type `metadata.MD`, a Go `map[string][]string`. -/
abbrev MD := List (GoString × List GoString)

/-- The method `MD.Get`: the key is converted to lower case before the lookup; a missing
key gives the nil slice. -/
def MD.Get (rt : GoRuntime) (md : MD) (k : GoString) : List GoString :=
  (mapGet md (ToLower rt k)).getD []

/-- The method `MD.Copy`: a map with the same entries.  The copy is listed, and so visited,
in the order of `md`; another order gives the same results as maps. -/
def MD.Copy (md : MD) : MD := md

/-- The type `context.Context`, reduced to the two values this package reads or writes. -/
structure Context (Span : Type) where
  /-- What `metadata.FromIncomingContext(ctx)` returns: the incoming metadata, if the
  context carries any.  The library returns it with lower-case keys. -/
  incomingMD : Option MD
  /-- The span stored under the active-span key, if any. -/
  activeSpan : Option Span
  deriving DecidableEq, Repr

/-- The function `metadata.FromIncomingContext`. -/
def FromIncomingContext {Span : Type} (ctx : Context Span) : Option MD := ctx.incomingMD

/-- The function `opentracing.ContextWithSpan`: the same context with `span` attached. -/
def ContextWithSpan {Span : Type} (ctx : Context Span) (span : Span) : Context Span :=
  { ctx with activeSpan := some span }

/-- The type `echo.Context`, reduced to the request's header and context. -/
structure EchoContext (Span : Type) where
  /-- The field `c.Request().Header`, an `http.Header`. -/
  Header : List (GoString × List GoString)
  /-- The value `c.Request().Context()`. -/
  RequestContext : Context Span
  deriving DecidableEq, Repr

/-! ## The tracer -/

/-- The carrier formats of `opentracing`. -/
inductive BuiltinFormat where
  | Binary
  | TextMap
  | HTTPHeaders
  deriving DecidableEq, Repr

/-- The carriers this package hands to the tracer. -/
inductive Carrier where
  /-- The conversion `opentracing.HTTPHeadersCarrier(header)`. -/
  | HTTPHeadersCarrier (header : List (GoString × List GoString))
  /-- A value of type `opentracing.TextMapCarrier`. -/
  | TextMap (carrier : TextMapCarrier)
  deriving DecidableEq, Repr

/-- The options this package passes to `StartSpan`. -/
inductive StartSpanOption (SpanContext : Type) where
  /-- The option `ext.RPCServerOption(client)`: the new span is the server side of an RPC
  and a child of `client`. -/
  | RPCServerOption (client : SpanContext)
  deriving DecidableEq, Repr

/-- The tracer behind `opentracing.GlobalTracer()`, with state `σ`.  Each operation returns
the tracer's next state with its result. -/
structure Tracer (σ SpanContext Span : Type) where
  /-- The method `Extract(format, carrier)`. -/
  Extract : σ → BuiltinFormat → Carrier → Except GoError SpanContext × σ
  /-- The method `StartSpan(operationName, opts...)`. -/
  StartSpan : σ → GoString → List (StartSpanOption SpanContext) → Span × σ

/-! ## Package `tracing` (`pkg/tracing/utils.go`) -/

/-- The function `StartHttpServerTracerSpan`. -/
def StartHttpServerTracerSpan {σ SpanContext Span : Type} (tracer : Tracer σ SpanContext Span)
    (st : σ) (c : EchoContext Span) (operationName : GoString) : (Context Span × Span) × σ :=
  match tracer.Extract st .HTTPHeaders (.HTTPHeadersCarrier c.Header) with
  | (.error _, st1) =>
    let serverSpan := tracer.StartSpan st1 operationName []
    let ctx := ContextWithSpan c.RequestContext serverSpan.1
    ((ctx, serverSpan.1), serverSpan.2)
  | (.ok spanCtx, st1) =>
    let serverSpan := tracer.StartSpan st1 operationName [.RPCServerOption spanCtx]
    let ctx := ContextWithSpan c.RequestContext serverSpan.1
    ((ctx, serverSpan.1), serverSpan.2)

/-- The loop of `GetTextMapCarrierFromMetaData` over the keys of `md.Copy()`:
`metadataMap.Set(key, md.Get(key)[0])`.  Indexing an empty slice panics. -/
def metadataLoop (rt : GoRuntime) (md : MD) :
    List (GoString × List GoString) → TextMapCarrier → Except GoPanic TextMapCarrier
  | [], metadataMap => .ok metadataMap
  | (key, _) :: rest, metadataMap =>
    match MD.Get rt md key with
    | [] => .error (.indexOutOfRange 0 0)
    | first :: _ => metadataLoop rt md rest (metadataMap.Set key first)

/-- The function `GetTextMapCarrierFromMetaData`. -/
def GetTextMapCarrierFromMetaData {Span : Type} (rt : GoRuntime) (ctx : Context Span) :
    Except GoPanic TextMapCarrier :=
  let metadataMap := TextMapCarrier.map []
  match FromIncomingContext ctx with
  | some md => metadataLoop rt md (MD.Copy md) metadataMap
  | none => .ok metadataMap

/-- The function `StartGrpcServerTracerSpan`. -/
def StartGrpcServerTracerSpan {σ SpanContext Span : Type} (rt : GoRuntime)
    (tracer : Tracer σ SpanContext Span) (st : σ) (ctx : Context Span)
    (operationName : GoString) : Except GoPanic ((Context Span × Span) × σ) :=
  match GetTextMapCarrierFromMetaData rt ctx with
  | .error p => .error p
  | .ok textMapCarrierFromMetaData =>
    match tracer.Extract st .TextMap (.TextMap textMapCarrierFromMetaData) with
    | (.error _, st1) =>
      let serverSpan := tracer.StartSpan st1 operationName []
      .ok ((ContextWithSpan ctx serverSpan.1, serverSpan.1), serverSpan.2)
    | (.ok span, st1) =>
      let serverSpan := tracer.StartSpan st1 operationName [.RPCServerOption span]
      .ok ((ContextWithSpan ctx serverSpan.1, serverSpan.1), serverSpan.2)

/-- The function `TextMapCarrierToBinary`. -/
def TextMapCarrierToBinary (rt : GoRuntime) (textMap : TextMapCarrier) :
    Except GoError GoString :=
  jsonMarshal rt textMap

/-- The function `TextMapCarrierFromBinary`. -/
def TextMapCarrierFromBinary (textMapBytes : GoString) : Except GoError TextMapCarrier :=
  match jsonUnmarshal textMapBytes with
  | .error err => .error err
  | .ok m => .ok m

/-- The reserved header key of `TextMapCarrierFromKafkaHeaders`. -/
def tracingKey : GoString := ascii "tracing"

/-- The function `TextMapCarrierFromKafkaHeaders`. -/
def TextMapCarrierFromKafkaHeaders (rt : GoRuntime) :
    List Header → Except GoError TextMapCarrier
  | [] => .error (.errorsNew "no tracing headers provided")
  | header :: headers =>
    if EqualFold rt header.Key tracingKey then
      match TextMapCarrierFromBinary header.Value with
      | .error err => .error err
      | .ok carrierFromBinary => .ok carrierFromBinary
    else TextMapCarrierFromKafkaHeaders rt headers

/-- The function `TextMapCarrierToKafkaMessageHeaders`. -/
def TextMapCarrierToKafkaMessageHeaders (textMap : TextMapCarrier) : List Header :=
  match textMap.ForeachKey
      (fun (headers : List Header) key val =>
        (headers ++ [{ Key := key, Value := val }], (none : Option GoError))) [] with
  | (headers, some _) => headers
  | (headers, none) => headers

/-- The function `TextMapCarrierFromKafkaMessageHeaders`. -/
def TextMapCarrierFromKafkaMessageHeaders (headers : List Header) : TextMapCarrier :=
  .map (headers.foldl (fun textMap header => mapSet textMap header.Key header.Value) [])

/-- The function `StartKafkaConsumerTracerSpan`. -/
def StartKafkaConsumerTracerSpan {σ SpanContext Span : Type}
    (tracer : Tracer σ SpanContext Span) (st : σ) (ctx : Context Span) (headers : List Header)
    (operationName : GoString) : (Context Span × Span) × σ :=
  let carrierFromKafkaHeaders := TextMapCarrierFromKafkaMessageHeaders headers
  match tracer.Extract st .TextMap (.TextMap carrierFromKafkaHeaders) with
  | (.error _, st1) =>
    let serverSpan := tracer.StartSpan st1 operationName []
    ((ContextWithSpan ctx serverSpan.1, serverSpan.1), serverSpan.2)
  | (.ok spanCtx, st1) =>
    let serverSpan := tracer.StartSpan st1 operationName [.RPCServerOption spanCtx]
    ((ContextWithSpan ctx serverSpan.1, serverSpan.1), serverSpan.2)

/-! ## Predicates and specification-side definitions -/

instance instDecidableNodupKeys {α : Type} (m : List (GoString × α)) : Decidable (NodupKeys m) := by
  unfold NodupKeys
  infer_instance

/-- Every byte of `s` is an ASCII byte. -/
def IsASCII (s : GoString) : Prop := ∀ b ∈ s, b < 128

instance instDecidableIsASCII (s : GoString) : Decidable (IsASCII s) := by
  unfold IsASCII
  infer_instance

/-- The keys and values of the entries are ASCII strings. -/
def ASCIIEntries (l : List (GoString × GoString)) : Prop :=
  ∀ kv ∈ l, IsASCII kv.1 ∧ IsASCII kv.2

instance instDecidableASCIIEntries (l : List (GoString × GoString)) :
    Decidable (ASCIIEntries l) := by
  unfold ASCIIEntries
  infer_instance

/-- A lower-case ASCII letter other than `k` and `s`, the two letters whose folding orbit
leaves ASCII. -/
def IsPlainLower (c : Nat) : Prop := 0x61 ≤ c ∧ c ≤ 0x7A ∧ c ≠ 0x6B ∧ c ≠ 0x73

instance instDecidableIsPlainLower (c : Nat) : Decidable (IsPlainLower c) := by
  unfold IsPlainLower
  infer_instance

/-- What the encoder writes for one ASCII byte of a string: the byte itself when it is in
`htmlSafeSet`, its escape otherwise. -/
def encodeByte (shortEscapes : Bool) (b : Nat) : GoString :=
  if htmlSafeSet b then [b] else escapeByte shortEscapes b

/-- The Span Bootstrap of the specification: given the outcome of the one extraction
(result and next tracer state), start the span named `operationName` as a root span when
the extraction failed and as a server-side child of the reconstructed context when it
succeeded, and return it bound into the caller's context. -/
def specSpanBootstrap {σ SpanContext Span : Type} (tracer : Tracer σ SpanContext Span)
    (extracted : Except GoError SpanContext × σ) (ctx : Context Span)
    (operationName : GoString) : (Context Span × Span) × σ :=
  let opts : List (StartSpanOption SpanContext) :=
    match extracted.1 with
    | .error _ => []
    | .ok parent => [.RPCServerOption parent]
  let started := tracer.StartSpan extracted.2 operationName opts
  ((ContextWithSpan ctx started.1, started.1), started.2)

/-- The carrier entry the RPC adapter makes of a metadata entry: the key with the first
value of its list. -/
def firstValue (kv : GoString × List GoString) : GoString × GoString := (kv.1, kv.2.headD [])

/-! ## Values used in the examples -/

/-- The span contexts of `exampleTracer`: the carrier they were extracted from. -/
abbrev ExampleSpanContext := TextMapCarrier

/-- The spans of `exampleTracer`: the operation name and the start options. -/
abbrev ExampleSpan := GoString × List (StartSpanOption ExampleSpanContext)

/-- A tracer whose state is the log of the carriers handed to `Extract`.  It finds a span
context in every text-map carrier that has an entry and in no other carrier; a span
records how it was started. -/
def exampleTracer : Tracer (List Carrier) ExampleSpanContext ExampleSpan where
  Extract := fun st _ carrier =>
    match carrier with
    | .TextMap c =>
      if c.entries.length = 0 then
        (.error (.errorsNew "opentracing: SpanContext not found in Extract carrier"),
          st ++ [carrier])
      else (.ok c, st ++ [carrier])
    | .HTTPHeadersCarrier _ =>
      (.error (.errorsNew "opentracing: SpanContext not found in Extract carrier"),
        st ++ [carrier])
  StartSpan := fun st operationName opts => ((operationName, opts), st)

/-- A context without incoming metadata and without a span. -/
def emptyContext : Context ExampleSpan := { incomingMD := none, activeSpan := none }

/-- A context whose incoming metadata is `md`. -/
def contextWithMD (md : MD) : Context ExampleSpan := { incomingMD := some md, activeSpan := none }

/-! ## Lemmas on maps -/

theorem mapSet_of_not_mem {α : Type} (m : List (GoString × α)) (k : GoString) (v : α)
    (h : k ∉ m.map Prod.fst) : mapSet m k v = m ++ [(k, v)] := by
  induction m with
  | nil => rfl
  | cons kv rest ih =>
    obtain ⟨k1, v1⟩ := kv
    simp only [List.map_cons, List.mem_cons, not_or] at h
    have hne : ¬ k1 = k := fun e => h.1 e.symm
    simp [mapSet, hne, ih h.2]

theorem mapGet_eq_some_iff {α : Type} (m : List (GoString × α)) (hm : NodupKeys m)
    (k : GoString) (v : α) : mapGet m k = some v ↔ (k, v) ∈ m := by
  induction m with
  | nil => simp [mapGet]
  | cons kv rest ih =>
    obtain ⟨k1, v1⟩ := kv
    have hnd : k1 ∉ rest.map Prod.fst ∧ NodupKeys rest := by
      simpa [NodupKeys] using hm
    by_cases hk : k1 = k
    · subst hk
      have hnot : ∀ w, (k1, w) ∉ rest := fun w hw =>
        hnd.1 (List.mem_map.mpr ⟨(k1, w), hw, rfl⟩)
      simp only [mapGet, if_true, Option.some.injEq, List.mem_cons, Prod.mk.injEq, true_and]
      constructor
      · intro e
        exact Or.inl e.symm
      · rintro (e | e)
        · exact e.symm
        · exact absurd e (hnot v)
    · have hk2 : ¬ k = k1 := fun e => hk e.symm
      simp [mapGet, hk, hk2, ih hnd.2]

theorem sameEntries_of_perm {α : Type} (m₁ m₂ : List (GoString × α)) (h₁ : NodupKeys m₁)
    (hp : m₁.Perm m₂) : SameEntries m₁ m₂ := by
  have h₂ : NodupKeys m₂ := (List.Perm.nodup_iff (hp.map Prod.fst)).mp h₁
  intro k
  apply Option.ext
  intro v
  simp only [Option.mem_def]
  rw [mapGet_eq_some_iff m₁ h₁, mapGet_eq_some_iff m₂ h₂]
  exact hp.mem_iff

/-! ## Lemmas on case folding -/

theorem decodeRune_ge (p0 : Nat) (rest : GoString) (h : 0x80 ≤ p0) :
    0x80 ≤ (DecodeRune (p0 :: rest)).1 := by
  have h0 : ¬ p0 < 0x80 := by omega
  rw [DecodeRune]
  simp only [h0, if_false, RuneError]
  by_cases h1 : p0 < 0xC2 ∨ 0xF4 < p0
  · simp [h1]
  simp only [h1, if_false]
  by_cases hA : p0 < 0xE0
  · have e1 : ¬ p0 = 0xE0 := by omega
    have e2 : ¬ p0 = 0xF0 := by omega
    have e3 : ¬ p0 = 0xED := by omega
    have e4 : ¬ p0 = 0xF4 := by omega
    simp only [hA, e1, e2, e3, e4, if_true, if_false, le_refl]
    repeat' split
    all_goals omega
  by_cases hB : p0 < 0xF0
  · have e2 : ¬ p0 = 0xF0 := by omega
    have e4 : ¬ p0 = 0xF4 := by omega
    have e5 : ¬ (3 ≤ 2) := by omega
    simp only [hA, hB, e2, e4, e5, if_true, if_false, le_refl]
    repeat' split
    all_goals omega
  · have e1 : ¬ p0 = 0xE0 := by omega
    have e3 : ¬ p0 = 0xED := by omega
    have e5 : ¬ (4 ≤ 2) := by omega
    have e6 : ¬ (4 ≤ 3) := by omega
    simp only [hA, hB, e1, e3, e5, e6, if_true, if_false]
    repeat' split
    all_goals omega

theorem equalFoldRunes_plain (rt : GoRuntime) (fuel : Nat) (k : Nat) (ks : GoString) (t0 : Nat)
    (ts : GoString) (hk : 0x80 ≤ k) (ht : IsPlainLower t0) :
    equalFoldRunes rt (fuel + 1) (k :: ks) (t0 :: ts) = false := by
  have hsr := decodeRune_ge k ks hk
  obtain ⟨h1, h2, h3, h4⟩ := ht
  have ht0 : t0 < RuneSelf := by simp [RuneSelf]; omega
  have hne : ¬ t0 = (DecodeRune (k :: ks)).1 := by omega
  have hlt : t0 < (DecodeRune (k :: ks)).1 := by omega
  have hhi : ¬ (DecodeRune (k :: ks)).1 < RuneSelf := by simp [RuneSelf]; omega
  have hfold : SimpleFold rt t0 = t0 - 0x20 := by
    have : ¬ MaxRune < t0 := by simp [MaxRune]; omega
    have h5 : t0 < 128 := by omega
    have h6 : ¬ (0x41 ≤ t0 ∧ t0 ≤ 0x5A) := by omega
    simp [SimpleFold, this, h5, asciiFold, h6, h3, h4, h1, h2]
  have hfold2 : SimpleFold rt (t0 - 0x20) = t0 := by
    have : ¬ MaxRune < t0 - 0x20 := by simp [MaxRune]; omega
    have h5 : t0 - 0x20 < 128 := by omega
    have h6 : (0x41 ≤ t0 - 0x20 ∧ t0 - 0x20 ≤ 0x5A) := by omega
    simp only [SimpleFold, this, h5, asciiFold, h6, if_true, if_false, and_self]
    omega
  have horbit : foldOrbit rt t0 (DecodeRune (k :: ks)).1 (MaxRune + 1) (t0 - 0x20) = t0 := by
    have ha : (t0 - 0x20 ≠ t0 ∧ t0 - 0x20 < (DecodeRune (k :: ks)).1) := by omega
    simp only [MaxRune, Nat.reduceAdd]
    rw [foldOrbit]
    simp only [ha, and_self, if_true, hfold2]
    rw [foldOrbit]
    simp
  simp only [equalFoldRunes, ht0, if_true, hne, if_false, hlt, hhi, hfold, horbit]

/-- For a second argument made of lower-case ASCII letters other than `k` and `s`,
`strings.EqualFold` is equality after lower-casing the ASCII letters of the first argument,
whatever the Unicode tables are. -/
theorem equalFold_plain_iff (rt : GoRuntime) (s t : GoString) (ht : ∀ c ∈ t, IsPlainLower c) :
    EqualFold rt s t = true ↔ s.map asciiToLower = t := by
  induction s generalizing t with
  | nil =>
    cases t with
    | nil => simp [EqualFold]
    | cons t0 ts => simp [EqualFold]
  | cons k ks ih =>
    cases t with
    | nil => simp [EqualFold]
    | cons t0 ts =>
      have ht0 := ht t0 (List.mem_cons_self _ _)
      have hts : ∀ c ∈ ts, IsPlainLower c := fun c hc => ht c (List.mem_cons_of_mem _ hc)
      obtain ⟨h1, h2, h3, h4⟩ := ht0
      rw [EqualFold]
      simp only [List.map_cons, List.cons.injEq, RuneSelf]
      by_cases hk : 0x80 ≤ k
      · have hr := equalFoldRunes_plain rt ks.length k ks t0 ts hk ⟨h1, h2, h3, h4⟩
        have hne : ¬ asciiToLower k = t0 := by
          unfold asciiToLower
          split_ifs <;> omega
        simp [hk, hr, hne]
      · have hcond : ¬ (0x80 ≤ k ∨ 0x80 ≤ t0) := by omega
        simp only [hcond, if_false]
        by_cases he : t0 = k
        · have hl : asciiToLower k = t0 := by
            unfold asciiToLower
            split_ifs <;> omega
          subst he
          simp [ih ts hts, hl]
        · simp only [he, if_false]
          by_cases hup : 0x41 ≤ k ∧ k ≤ 0x5A ∧ t0 = k + 0x20
          · have hlt : ¬ t0 < k := by omega
            have hl : asciiToLower k = t0 := by
              unfold asciiToLower
              split_ifs <;> omega
            simp [hlt, hup, ih ts hts, hl]
          · have hl : ¬ asciiToLower k = t0 := by
              unfold asciiToLower
              split_ifs <;> omega
            have hfalse : ¬ (0x41 ≤ (if t0 < k then t0 else k) ∧ (if t0 < k then t0 else k) ≤ 0x5A ∧
                (if t0 < k then k else t0) = (if t0 < k then t0 else k) + 0x20) := by
              split_ifs <;> omega
            simp [hfalse, hl]

/-- A header key matches the reserved key exactly when its ASCII lower-casing is `tracing`;
the Unicode tables play no part. -/
theorem equalFold_tracingKey (rt : GoRuntime) (key : GoString) :
    EqualFold rt key tracingKey = true ↔ key.map asciiToLower = tracingKey :=
  equalFold_plain_iff rt key tracingKey (by decide)

/-! ## Lemmas on the header adapters -/

theorem foreachKeyLoop_append (l : List (GoString × GoString)) (acc : List Header) :
    foreachKeyLoop
      (fun (headers : List Header) key val =>
        (headers ++ [{ Key := key, Value := val }], (none : Option GoError))) l acc
      = (acc ++ l.map (fun kv => { Key := kv.1, Value := kv.2 }), none) := by
  induction l generalizing acc with
  | nil => simp [foreachKeyLoop]
  | cons kv rest ih =>
    obtain ⟨k, v⟩ := kv
    simp [foreachKeyLoop, ih]

theorem toKafkaMessageHeaders_eq (c : TextMapCarrier) :
    TextMapCarrierToKafkaMessageHeaders c
      = c.entries.map (fun kv => { Key := kv.1, Value := kv.2 }) := by
  simp [TextMapCarrierToKafkaMessageHeaders, TextMapCarrier.ForeachKey, foreachKeyLoop_append]

theorem foldl_mapSet_headers (l acc : List (GoString × GoString))
    (h : NodupKeys (acc ++ l)) :
    (l.map (fun kv => ({ Key := kv.1, Value := kv.2 } : Header))).foldl
      (fun textMap header => mapSet textMap header.Key header.Value) acc = acc ++ l := by
  induction l generalizing acc with
  | nil => simp
  | cons kv rest ih =>
    obtain ⟨k, v⟩ := kv
    have hk : k ∉ acc.map Prod.fst := by
      intro hmem
      have hnd : ((acc.map Prod.fst) ++ k :: rest.map Prod.fst).Nodup := by
        simpa [NodupKeys] using h
      exact (List.nodup_append.mp hnd).2.2 hmem (List.mem_cons_self _ _)
    have h2 : NodupKeys ((acc ++ [(k, v)]) ++ rest) := by
      simpa [List.append_assoc] using h
    simp only [List.map_cons, List.foldl_cons]
    rw [mapSet_of_not_mem acc k v hk, ih (acc ++ [(k, v)]) h2]
    simp

theorem fromKafkaMessageHeaders_toKafkaMessageHeaders (c : TextMapCarrier)
    (h : NodupKeys c.entries) :
    TextMapCarrierFromKafkaMessageHeaders (TextMapCarrierToKafkaMessageHeaders c)
      = .map c.entries := by
  rw [toKafkaMessageHeaders_eq, TextMapCarrierFromKafkaMessageHeaders,
    foldl_mapSet_headers c.entries [] (by simpa using h)]
  simp

theorem fromKafkaHeaders_none (rt : GoRuntime) (headers : List Header)
    (h : ∀ x ∈ headers, EqualFold rt x.Key tracingKey = false) :
    TextMapCarrierFromKafkaHeaders rt headers
      = .error (.errorsNew "no tracing headers provided") := by
  induction headers with
  | nil => rfl
  | cons x rest ih =>
    have hx := h x (List.mem_cons_self _ _)
    simp only [TextMapCarrierFromKafkaHeaders, hx]
    exact ih (fun y hy => h y (List.mem_cons_of_mem _ hy))

/-! ## Lemmas on the JSON codec -/

theorem encodeStringLoop_ascii (rt : GoRuntime) (s : GoString) (hs : IsASCII s) (fuel : Nat)
    (hf : s.length ≤ fuel) :
    encodeStringLoop rt fuel s = s.flatMap (encodeByte rt.jsonShortEscapes) := by
  induction s generalizing fuel with
  | nil => cases fuel <;> simp [encodeStringLoop]
  | cons b rest ih =>
    cases fuel with
    | zero => simp at hf
    | succ f =>
      have hb : b < 128 := hs b (List.mem_cons_self _ _)
      have hrest := ih (fun x hx => hs x (List.mem_cons_of_mem _ hx)) f
        (by simpa using hf)
      simp only [encodeStringLoop, RuneSelf, hb, if_true, hrest, List.flatMap_cons, encodeByte]
      split <;> simp

theorem isHexDigit_hex (n : Nat) (h : n < 16) : isHexDigit (hex n) = true := by
  revert n; decide

theorem hexValue_hex (n : Nat) (h : n < 16) : hexValue (hex n) = some n := by
  revert n; decide

theorem hex_not_special (n : Nat) (h : n < 16) : hex n ≠ 0x22 ∧ hex n ≠ 0x5C ∧ 0x20 ≤ hex n := by
  revert n; decide

/-- The shapes of the encoding of an ASCII byte: the byte itself, a two-byte escape, or a
`\u00XY` escape. -/
theorem encodeByte_cases (sh : Bool) (b : Nat) (hb : b < 128) :
    (encodeByte sh b = [b] ∧ b ≠ 0x22 ∧ b ≠ 0x5C ∧ 0x20 ≤ b) ∨
    (encodeByte sh b = [0x5C, b] ∧ (b = 0x22 ∨ b = 0x5C)) ∨
    (encodeByte sh b = [0x5C, 0x62] ∧ b = 0x08) ∨
    (encodeByte sh b = [0x5C, 0x66] ∧ b = 0x0C) ∨
    (encodeByte sh b = [0x5C, 0x6E] ∧ b = 0x0A) ∨
    (encodeByte sh b = [0x5C, 0x72] ∧ b = 0x0D) ∨
    (encodeByte sh b = [0x5C, 0x74] ∧ b = 0x09) ∨
    (encodeByte sh b = [0x5C, 0x75, 0x30, 0x30, hex (b / 16), hex (b % 16)]) := by
  revert b
  cases sh <;> decide

theorem checkValidLoop_append (sc : Scanner) (l₁ l₂ : GoString) :
    checkValidLoop sc (l₁ ++ l₂)
      = match checkValidLoop sc l₁ with
        | .ok sc1 => checkValidLoop sc1 l₂
        | .error err => .error err := by
  induction l₁ generalizing sc with
  | nil => simp [checkValidLoop]
  | cons c rest ih =>
    simp only [List.cons_append, checkValidLoop]
    split
    · rfl
    · exact ih _

/-- The scanner stays inside the string while it reads the encoding of an ASCII byte. -/
theorem scan_encodeByte (sh : Bool) (b : Nat) (hb : b < 128) (ps : List ParseState)
    (e t : Bool) :
    checkValidLoop ⟨.stateInString, ps, e, t⟩ (encodeByte sh b)
      = .ok ⟨.stateInString, ps, e, t⟩ := by
  rcases encodeByte_cases sh b hb with h | h | h | h | h | h | h | h
  · obtain ⟨h1, h2, h3, h4⟩ := h
    have h5 : ¬ b < 32 := by omega
    simp [h1, checkValidLoop, Scanner.doStep, stateInString, h2, h3, h5]
  · obtain ⟨h1, h2⟩ := h
    rcases h2 with h2 | h2 <;> subst h2 <;> rw [h1] <;>
      simp [checkValidLoop, Scanner.doStep, stateInString, stateInStringEsc, Scanner.goto]
  · rw [h.1]
    simp [checkValidLoop, Scanner.doStep, stateInString, stateInStringEsc, Scanner.goto]
  · rw [h.1]
    simp [checkValidLoop, Scanner.doStep, stateInString, stateInStringEsc, Scanner.goto]
  · rw [h.1]
    simp [checkValidLoop, Scanner.doStep, stateInString, stateInStringEsc, Scanner.goto]
  · rw [h.1]
    simp [checkValidLoop, Scanner.doStep, stateInString, stateInStringEsc, Scanner.goto]
  · rw [h.1]
    simp [checkValidLoop, Scanner.doStep, stateInString, stateInStringEsc, Scanner.goto]
  · rw [h]
    have h1 := isHexDigit_hex (b / 16) (by omega)
    have h2 := isHexDigit_hex (b % 16) (by omega)
    have h3 : isHexDigit 0x30 = true := by decide
    simp [checkValidLoop, Scanner.doStep, stateInString, stateInStringEsc, Scanner.goto,
      stateHexDigit, h1, h2, h3]

theorem scan_stringBody (sh : Bool) (s : GoString) (hs : IsASCII s) (ps : List ParseState)
    (e t : Bool) (rest : GoString) :
    checkValidLoop ⟨.stateInString, ps, e, t⟩ (s.flatMap (encodeByte sh) ++ rest)
      = checkValidLoop ⟨.stateInString, ps, e, t⟩ rest := by
  induction s with
  | nil => simp
  | cons b tl ih =>
    rw [List.flatMap_cons, List.append_assoc, checkValidLoop_append,
      scan_encodeByte sh b (hs b (List.mem_cons_self _ _))]
    exact ih (fun x hx => hs x (List.mem_cons_of_mem _ hx))

theorem rescan_quote (rest : GoString) : rescanString (0x22 :: rest) = ([0x22], rest) := by
  rw [rescanString.eq_def]; simp

theorem rescan_plain (c : Nat) (rest : GoString) (h1 : c ≠ 0x22) (h2 : c ≠ 0x5C) :
    rescanString (c :: rest) = (c :: (rescanString rest).1, (rescanString rest).2) := by
  rw [rescanString.eq_def]; simp [h1, h2]

theorem rescan_esc (e : Nat) (rest : GoString) :
    rescanString (0x5C :: e :: rest)
      = (0x5C :: e :: (rescanString rest).1, (rescanString rest).2) := by
  rw [rescanString.eq_def]; simp

/-- The literal scan passes over the encoding of an ASCII byte. -/
theorem rescan_encodeByte (sh : Bool) (b : Nat) (hb : b < 128) (rest : GoString) :
    rescanString (encodeByte sh b ++ rest)
      = (encodeByte sh b ++ (rescanString rest).1, (rescanString rest).2) := by
  rcases encodeByte_cases sh b hb with h | h | h | h | h | h | h | h
  · obtain ⟨h1, h2, h3, h4⟩ := h
    simp [h1, rescan_plain b rest h2 h3]
  · obtain ⟨h1, h2⟩ := h
    rw [h1]
    simp [rescan_esc]
  · rw [h.1]; simp [rescan_esc]
  · rw [h.1]; simp [rescan_esc]
  · rw [h.1]; simp [rescan_esc]
  · rw [h.1]; simp [rescan_esc]
  · rw [h.1]; simp [rescan_esc]
  · rw [h]
    obtain ⟨a1, a2, -⟩ := hex_not_special (b / 16) (by omega)
    obtain ⟨b1, b2, -⟩ := hex_not_special (b % 16) (by omega)
    have z1 : (0x30 : Nat) ≠ 0x22 := by decide
    have z2 : (0x30 : Nat) ≠ 0x5C := by decide
    simp only [List.cons_append, List.nil_append]
    rw [rescan_esc, rescan_plain _ _ z1 z2, rescan_plain _ _ z1 z2, rescan_plain _ _ a1 a2,
      rescan_plain _ _ b1 b2]

theorem rescan_stringBody (sh : Bool) (s : GoString) (hs : IsASCII s) (rest : GoString) :
    rescanString (s.flatMap (encodeByte sh) ++ 0x22 :: rest)
      = (s.flatMap (encodeByte sh) ++ [0x22], rest) := by
  induction s with
  | nil => simp [rescan_quote]
  | cons b tl ih =>
    rw [List.flatMap_cons, List.append_assoc,
      rescan_encodeByte sh b (hs b (List.mem_cons_self _ _)),
      ih (fun x hx => hs x (List.mem_cons_of_mem _ hx))]
    simp

theorem encodeByte_length_pos (sh : Bool) (b : Nat) : 1 ≤ (encodeByte sh b).length := by
  unfold encodeByte escapeByte
  split <;> simp

/-- One round of the unquoting loop reads back the encoding of an ASCII byte. -/
theorem unquote_encodeByte (sh : Bool) (b : Nat) (hb : b < 128) (rest : GoString)
    (fuel : Nat) :
    unquoteLoop (fuel + 1) (encodeByte sh b ++ rest) = consOut [b] (unquoteLoop fuel rest) := by
  rcases encodeByte_cases sh b hb with h | h | h | h | h | h | h | h
  · obtain ⟨h1, h2, h3, h4⟩ := h
    have h5 : ¬ b < 32 := by omega
    simp [h1, unquoteLoop, h2, h3, h5, RuneSelf, hb]
  · obtain ⟨h1, h2⟩ := h
    rcases h2 with h2 | h2 <;> subst h2 <;> rw [h1] <;> simp [unquoteLoop]
  · rw [h.1, h.2]; simp [unquoteLoop]
  · rw [h.1, h.2]; simp [unquoteLoop]
  · rw [h.1, h.2]; simp [unquoteLoop]
  · rw [h.1, h.2]; simp [unquoteLoop]
  · rw [h.1, h.2]; simp [unquoteLoop]
  · rw [h]
    have h1 := hexValue_hex (b / 16) (by omega)
    have h2 := hexValue_hex (b % 16) (by omega)
    have h3 : hexValue 0x30 = some 0 := by decide
    have h4 : b / 16 * 16 + b % 16 = b := by omega
    have h5 : IsSurrogate b = false := by
      simp [IsSurrogate]; omega
    have h6 : EncodeRune b = [b] := by
      simp [EncodeRune]; omega
    simp [unquoteLoop, getu4, h1, h2, h3, h4, h5, h6]

theorem unquote_stringBody (sh : Bool) (s : GoString) (hs : IsASCII s) (fuel : Nat)
    (hf : (s.flatMap (encodeByte sh)).length ≤ fuel) :
    unquoteLoop fuel (s.flatMap (encodeByte sh)) = some s := by
  induction s generalizing fuel with
  | nil => cases fuel <;> simp [unquoteLoop]
  | cons b tl ih =>
    have hpos := encodeByte_length_pos sh b
    rw [List.flatMap_cons, List.length_append] at hf
    cases fuel with
    | zero => omega
    | succ f =>
      rw [List.flatMap_cons, unquote_encodeByte sh b (hs b (List.mem_cons_self _ _)),
        ih (fun x hx => hs x (List.mem_cons_of_mem _ hx)) f (by omega)]
      rfl

theorem encodeString_ascii (rt : GoRuntime) (s : GoString) (hs : IsASCII s) :
    encodeString rt s = 0x22 :: (s.flatMap (encodeByte rt.jsonShortEscapes) ++ [0x22]) := by
  rw [encodeString, encodeStringLoop_ascii rt s hs s.length (le_refl _)]

theorem unquoteBytes_encodeString (sh : Bool) (s : GoString) (hs : IsASCII s) :
    unquoteBytes (0x22 :: (s.flatMap (encodeByte sh) ++ [0x22])) = some s := by
  have h1 : (s.flatMap (encodeByte sh) ++ [0x22]).getLast? = some 0x22 := by simp
  simp only [unquoteBytes, h1, and_self, if_true, List.dropLast_concat]
  exact unquote_stringBody sh s hs _ (by simp)

theorem skipSpace_cons (c : Nat) (rest : GoString) (h : isSpace c = false) :
    skipSpace (c :: rest) = c :: rest := by
  simp [skipSpace, h]

theorem skipSpace_quote (rest : GoString) : skipSpace (0x22 :: rest) = 0x22 :: rest :=
  skipSpace_cons _ _ (by decide)

theorem skipSpace_colon (rest : GoString) : skipSpace (0x3A :: rest) = 0x3A :: rest :=
  skipSpace_cons _ _ (by decide)

theorem skipSpace_comma (rest : GoString) : skipSpace (0x2C :: rest) = 0x2C :: rest :=
  skipSpace_cons _ _ (by decide)

theorem skipSpace_closing (rest : GoString) : skipSpace (0x7D :: rest) = 0x7D :: rest :=
  skipSpace_cons _ _ (by decide)

theorem skipSpace_opening (rest : GoString) : skipSpace (0x7B :: rest) = 0x7B :: rest :=
  skipSpace_cons _ _ (by decide)

/-- The decoder reads back the string literal that the encoder wrote for an ASCII string. -/
theorem decodeStringValue_encodeString (rt : GoRuntime) (v : GoString) (hv : IsASCII v)
    (rest : GoString) :
    decodeStringValue (encodeString rt v ++ rest) = .ok (v, rest) := by
  rw [encodeString_ascii rt v hv]
  simp only [List.cons_append, List.append_assoc, List.singleton_append, decodeStringValue,
    if_true, rescan_stringBody _ v hv, unquoteBytes_encodeString _ v hv, List.nil_append]

theorem scan_encodeString (sh : Bool) (s : GoString) (hs : IsASCII s) (ps : List ParseState)
    (e t : Bool) (rest : GoString) :
    checkValidLoop ⟨.stateInString, ps, e, t⟩ (s.flatMap (encodeByte sh) ++ 0x22 :: rest)
      = checkValidLoop ⟨.stateEndValue, ps, e, t⟩ rest := by
  rw [scan_stringBody sh s hs]
  simp [checkValidLoop, Scanner.doStep, stateInString, Scanner.goto]

theorem encodeMapEntries_false_cons (rt : GoRuntime) (kv : GoString × GoString)
    (l : List (GoString × GoString)) :
    encodeMapEntries rt false (kv :: l) = 0x2C :: encodeMapEntries rt true (kv :: l) := by
  simp [encodeMapEntries]

theorem encodeMapEntries_length (rt : GoRuntime) (first : Bool)
    (l : List (GoString × GoString)) :
    l.length ≤ (encodeMapEntries rt first l).length := by
  induction l generalizing first with
  | nil => simp
  | cons kv rest ih =>
    have := ih false
    simp only [encodeMapEntries, encodeString, List.length_append, List.length_cons]
    omega

/-- One round of the object loop on an encoded entry: the pair is stored and the loop goes
on with what follows the value. -/
theorem decodeObject_step (rt : GoRuntime) (k v : GoString) (hk : IsASCII k) (hv : IsASCII v)
    (rest : GoString) (m : List (GoString × GoString)) (f : Nat) :
    decodeObject (f + 1) (encodeString rt k ++ 0x3A :: (encodeString rt v ++ rest)) m
      = match skipSpace rest with
        | [] => .error .phasePanic
        | c1 :: rest4 =>
          if c1 = 0x7D then .ok (mapSet m k v)
          else if c1 = 0x2C then decodeObject f rest4 (mapSet m k v)
          else .error .phasePanic := by
  have hd := decodeStringValue_encodeString rt v hv rest
  rw [decodeObject, encodeString_ascii rt k hk]
  simp only [List.cons_append, List.append_assoc, List.singleton_append, skipSpace_quote,
    rescan_stringBody _ k hk, unquoteBytes_encodeString _ k hk, skipSpace_colon,
    List.nil_append]
  have hq : skipSpace (encodeString rt v ++ rest) = encodeString rt v ++ rest := by
    rw [encodeString]
    exact skipSpace_quote _
  simp only [hq, hd, ne_eq, not_true_eq_false, if_false]
  cases skipSpace rest <;> simp

theorem decodeObject_entries (rt : GoRuntime) (l : List (GoString × GoString))
    (kv : GoString × GoString) (h : ASCIIEntries (kv :: l)) (tail : GoString)
    (m : List (GoString × GoString)) (fuel : Nat) (hf : l.length < fuel) :
    decodeObject fuel (encodeMapEntries rt true (kv :: l) ++ 0x7D :: tail) m
      = .ok ((kv :: l).foldl (fun acc e => mapSet acc e.1 e.2) m) := by
  induction l generalizing kv m fuel with
  | nil =>
    obtain ⟨f, rfl⟩ : ∃ f, fuel = f + 1 := ⟨fuel - 1, by omega⟩
    obtain ⟨hk, hv⟩ := h kv (List.mem_cons_self _ _)
    simp only [encodeMapEntries, if_true, List.nil_append, List.append_nil, List.append_assoc,
      List.cons_append]
    rw [decodeObject_step rt kv.1 kv.2 hk hv, skipSpace_closing]
    simp
  | cons kv1 rest ih =>
    obtain ⟨f, rfl⟩ : ∃ f, fuel = f + 1 := ⟨fuel - 1, by omega⟩
    obtain ⟨hk, hv⟩ := h kv (List.mem_cons_self _ _)
    have h1 : ASCIIEntries (kv1 :: rest) := fun x hx => h x (List.mem_cons_of_mem _ hx)
    have hrec := ih kv1 h1 (mapSet m kv.1 kv.2) f (by simpa using hf)
    rw [encodeMapEntries, encodeMapEntries_false_cons]
    simp only [if_true, List.nil_append, List.append_assoc, List.cons_append]
    rw [decodeObject_step rt kv.1 kv.2 hk hv, skipSpace_comma]
    simp [hrec]

/-- The scanner over one encoded entry: from the start of a key to the end of the value. -/
theorem scan_member (rt : GoRuntime) (st : StepFn)
    (hst : st = .stateBeginStringOrEmpty ∨ st = .stateBeginString)
    (k v : GoString) (hk : IsASCII k) (hv : IsASCII v) (rest : GoString) :
    checkValidLoop ⟨st, [.parseObjectKey], false, false⟩
        (encodeString rt k ++ 0x3A :: (encodeString rt v ++ rest))
      = checkValidLoop ⟨.stateEndValue, [.parseObjectValue], false, false⟩ rest := by
  rw [encodeString_ascii rt k hk, encodeString_ascii rt v hv]
  simp only [List.cons_append, List.append_assoc, List.singleton_append, List.nil_append]
  have h1 : ∀ data, checkValidLoop ⟨st, [.parseObjectKey], false, false⟩ (0x22 :: data)
      = checkValidLoop ⟨.stateInString, [.parseObjectKey], false, false⟩ data := by
    intro data
    rcases hst with h | h <;> subst h <;>
      simp [checkValidLoop, Scanner.doStep, stateBeginStringOrEmpty, stateBeginString,
        Scanner.goto, isSpace]
  rw [h1, scan_encodeString _ k hk]
  have h2 : ∀ data, checkValidLoop ⟨.stateEndValue, [.parseObjectKey], false, false⟩
        (0x3A :: 0x22 :: data)
      = checkValidLoop ⟨.stateInString, [.parseObjectValue], false, false⟩ data := by
    intro data
    simp [checkValidLoop, Scanner.doStep, stateEndValue, stateBeginValue, Scanner.goto,
      Scanner.setTop, isSpace]
  rw [h2, scan_encodeString _ v hv]

theorem scan_entries (rt : GoRuntime) (l : List (GoString × GoString))
    (kv : GoString × GoString) (h : ASCIIEntries (kv :: l)) (st : StepFn)
    (hst : st = .stateBeginStringOrEmpty ∨ st = .stateBeginString) (tail : GoString) :
    checkValidLoop ⟨st, [.parseObjectKey], false, false⟩
        (encodeMapEntries rt true (kv :: l) ++ 0x7D :: tail)
      = checkValidLoop ⟨.stateEndTop, [], false, true⟩ tail := by
  induction l generalizing kv st with
  | nil =>
    obtain ⟨hk, hv⟩ := h kv (List.mem_cons_self _ _)
    simp only [encodeMapEntries, if_true, List.nil_append, List.append_nil, List.append_assoc,
      List.cons_append]
    rw [scan_member rt st hst kv.1 kv.2 hk hv]
    simp [checkValidLoop, Scanner.doStep, stateEndValue, Scanner.popParseState, isSpace]
  | cons kv1 rest ih =>
    obtain ⟨hk, hv⟩ := h kv (List.mem_cons_self _ _)
    have h1 : ASCIIEntries (kv1 :: rest) := fun x hx => h x (List.mem_cons_of_mem _ hx)
    rw [encodeMapEntries, encodeMapEntries_false_cons]
    simp only [if_true, List.nil_append, List.append_assoc, List.cons_append]
    rw [scan_member rt st hst kv.1 kv.2 hk hv]
    have h2 : ∀ data, checkValidLoop ⟨.stateEndValue, [.parseObjectValue], false, false⟩
          (0x2C :: data)
        = checkValidLoop ⟨.stateBeginString, [.parseObjectKey], false, false⟩ data := by
      intro data
      simp [checkValidLoop, Scanner.doStep, stateEndValue, Scanner.goto, Scanner.setTop, isSpace]
    rw [h2]
    exact ih kv1 h1 .stateBeginString (Or.inr rfl)

/-- The scanner accepts the object that the encoder writes for ASCII entries. -/
theorem checkValid_object (rt : GoRuntime) (l : List (GoString × GoString))
    (h : ASCIIEntries l) :
    checkValid (0x7B :: (encodeMapEntries rt true l ++ [0x7D])) = none := by
  have h0 : ∀ data, checkValidLoop Scanner.reset (0x7B :: data)
      = checkValidLoop ⟨.stateBeginStringOrEmpty, [.parseObjectKey], false, false⟩ data := by
    intro data
    simp [checkValidLoop, Scanner.doStep, Scanner.reset, stateBeginValue, Scanner.pushParseState,
      maxNestingDepth, isSpace]
  rw [checkValid, h0]
  cases l with
  | nil =>
    simp [encodeMapEntries, checkValidLoop, Scanner.doStep, stateBeginStringOrEmpty,
      stateEndValue, Scanner.setTop, Scanner.popParseState, isSpace, Scanner.eof]
  | cons kv rest =>
    rw [scan_entries rt rest kv h _ (Or.inl rfl)]
    simp [checkValidLoop, Scanner.eof]

/-- The decoder stores the entries of the object that the encoder wrote, in order. -/
theorem decodeTop_object (rt : GoRuntime) (l : List (GoString × GoString))
    (h : ASCIIEntries l) :
    decodeTop (0x7B :: (encodeMapEntries rt true l ++ [0x7D]))
      = .ok (.map (l.foldl (fun acc e => mapSet acc e.1 e.2) [])) := by
  rw [decodeTop, skipSpace_opening]
  simp only [if_true]
  cases l with
  | nil => simp [encodeMapEntries, decodeObject, skipSpace_closing]
  | cons kv rest =>
    rw [decodeObject_entries rt rest kv h [] []]
    have := encodeMapEntries_length rt true (kv :: rest)
    simp only [List.length_cons, List.length_append, List.length_nil] at this ⊢
    omega

theorem foldl_mapSet_entries (l acc : List (GoString × GoString)) (h : NodupKeys (acc ++ l)) :
    l.foldl (fun m e => mapSet m e.1 e.2) acc = acc ++ l := by
  induction l generalizing acc with
  | nil => simp
  | cons kv rest ih =>
    obtain ⟨k, v⟩ := kv
    have hk : k ∉ acc.map Prod.fst := by
      intro hmem
      have hnd : ((acc.map Prod.fst) ++ k :: rest.map Prod.fst).Nodup := by
        simpa [NodupKeys] using h
      exact (List.nodup_append.mp hnd).2.2 hmem (List.mem_cons_self _ _)
    have h2 : NodupKeys ((acc ++ [(k, v)]) ++ rest) := by
      simpa [List.append_assoc] using h
    simp only [List.foldl_cons]
    rw [mapSet_of_not_mem acc k v hk, ih (acc ++ [(k, v)]) h2]
    simp

/-- Outside ASCII the round trip can fail: the value byte `0xFF` is not valid UTF-8, the
encoder writes `\ufffd` for it and the decoder returns the three bytes of U+FFFD. -/
theorem roundTrip_invalid_utf8 :
    TextMapCarrierToBinary exampleRuntime (.map [(ascii "k", [0xFF])])
      = .ok (ascii "\x7b\"k\":\"\\ufffd\"\x7d") ∧
    TextMapCarrierFromBinary (ascii "\x7b\"k\":\"\\ufffd\"\x7d")
      = .ok (.map [(ascii "k", [0xEF, 0xBF, 0xBD])]) := by
  decide

/-- A value that is valid UTF-8 above ASCII (`é`, the bytes `C3 A9`) is written unescaped
and read back unchanged. -/
theorem roundTrip_valid_utf8 :
    TextMapCarrierToBinary exampleRuntime (.map [(ascii "k", [0xC3, 0xA9])])
      = .ok (ascii "\x7b\"k\":\"" ++ [0xC3, 0xA9] ++ ascii "\"\x7d") ∧
    TextMapCarrierFromBinary (ascii "\x7b\"k\":\"" ++ [0xC3, 0xA9] ++ ascii "\"\x7d")
      = .ok (.map [(ascii "k", [0xC3, 0xA9])]) := by
  decide

/-! ## Lemmas on the RPC adapter -/

theorem mdGet_of_mem (rt : GoRuntime) (md : MD) (hnd : NodupKeys md) (key : GoString)
    (values : List GoString) (hmem : (key, values) ∈ md) (hlow : ToLower rt key = key) :
    MD.Get rt md key = values := by
  have h := (mapGet_eq_some_iff md hnd key values).mpr hmem
  simp [MD.Get, hlow, h]

theorem metadataLoop_ok (rt : GoRuntime) (md : MD) (hnd : NodupKeys md)
    (hlow : ∀ kv ∈ md, ToLower rt kv.1 = kv.1) (rest done : List (GoString × List GoString))
    (hmd : md = done ++ rest) (hne : ∀ kv ∈ rest, kv.2 ≠ []) :
    metadataLoop rt md rest (.map (done.map firstValue)) = .ok (.map (md.map firstValue)) := by
  induction rest generalizing done with
  | nil => simp [metadataLoop, hmd]
  | cons kv tl ih =>
    obtain ⟨key, values⟩ := kv
    have hmem : (key, values) ∈ md := by simp [hmd]
    have hget := mdGet_of_mem rt md hnd key values hmem (hlow _ hmem)
    have hv : values ≠ [] := hne (key, values) (List.mem_cons_self _ _)
    obtain ⟨first, more, rfl⟩ := List.exists_cons_of_ne_nil hv
    have hkey : key ∉ (done.map firstValue).map Prod.fst := by
      intro hin
      have hnd2 : ((done.map Prod.fst) ++ key :: tl.map Prod.fst).Nodup := by
        simpa [NodupKeys, hmd] using hnd
      have hin2 : key ∈ done.map Prod.fst := by
        simpa [firstValue, Function.comp_def] using hin
      exact (List.nodup_append.mp hnd2).2.2 hin2 (List.mem_cons_self _ _)
    simp only [metadataLoop, hget, TextMapCarrier.Set, TextMapCarrier.entries]
    rw [mapSet_of_not_mem _ key first hkey]
    have := ih (done ++ [(key, first :: more)]) (by simp [hmd])
      (fun x hx => hne x (List.mem_cons_of_mem _ hx))
    simpa [firstValue] using this

theorem metadataLoop_panic (rt : GoRuntime) (md : MD)
    (rest : List (GoString × List GoString)) (acc : TextMapCarrier)
    (h : ∃ kv ∈ rest, MD.Get rt md kv.1 = []) :
    metadataLoop rt md rest acc = .error (.indexOutOfRange 0 0) := by
  induction rest generalizing acc with
  | nil => simp at h
  | cons kv tl ih =>
    obtain ⟨key, values⟩ := kv
    simp only [metadataLoop]
    cases hget : MD.Get rt md key with
    | nil => rfl
    | cons first more =>
      simp only
      apply ih
      obtain ⟨x, hx, hxe⟩ := h
      rcases List.mem_cons.mp hx with rfl | hx2
      · rw [hget] at hxe
        cases hxe
      · exact ⟨x, hx2, hxe⟩

theorem mapGet_map_firstValue (md : MD) (hnd : NodupKeys md) (key : GoString)
    (values : List GoString) (hmem : (key, values) ∈ md) (hv : values ≠ []) :
    mapGet (md.map firstValue) key = values.head? := by
  have hnd2 : NodupKeys (md.map firstValue) := by
    simpa [NodupKeys, firstValue, Function.comp_def] using hnd
  obtain ⟨first, more, rfl⟩ := List.exists_cons_of_ne_nil hv
  rw [List.head?_cons, mapGet_eq_some_iff _ hnd2]
  exact List.mem_map.mpr ⟨(key, first :: more), hmem, rfl⟩

theorem bootstrap_http {σ SpanContext Span : Type} (tracer : Tracer σ SpanContext Span)
    (st : σ) (c : EchoContext Span) (operationName : GoString) :
    StartHttpServerTracerSpan tracer st c operationName
      = specSpanBootstrap tracer (tracer.Extract st .HTTPHeaders (.HTTPHeadersCarrier c.Header))
          c.RequestContext operationName := by
  unfold StartHttpServerTracerSpan specSpanBootstrap
  rcases tracer.Extract st .HTTPHeaders (.HTTPHeadersCarrier c.Header) with ⟨r | r, st1⟩ <;> rfl

theorem bootstrap_kafka {σ SpanContext Span : Type} (tracer : Tracer σ SpanContext Span)
    (st : σ) (ctx : Context Span) (headers : List Header) (operationName : GoString) :
    StartKafkaConsumerTracerSpan tracer st ctx headers operationName
      = specSpanBootstrap tracer
          (tracer.Extract st .TextMap (.TextMap (TextMapCarrierFromKafkaMessageHeaders headers)))
          ctx operationName := by
  simp only [StartKafkaConsumerTracerSpan, specSpanBootstrap]
  rcases tracer.Extract st .TextMap
    (.TextMap (TextMapCarrierFromKafkaMessageHeaders headers)) with ⟨r | r, st1⟩ <;> rfl

theorem bootstrap_grpc {σ SpanContext Span : Type} (rt : GoRuntime)
    (tracer : Tracer σ SpanContext Span) (st : σ) (ctx : Context Span)
    (operationName : GoString) :
    StartGrpcServerTracerSpan rt tracer st ctx operationName
      = match GetTextMapCarrierFromMetaData rt ctx with
        | .error p => .error p
        | .ok carrier =>
          .ok (specSpanBootstrap tracer (tracer.Extract st .TextMap (.TextMap carrier)) ctx
            operationName) := by
  unfold StartGrpcServerTracerSpan specSpanBootstrap
  cases GetTextMapCarrierFromMetaData rt ctx with
  | error p => rfl
  | ok carrier =>
    simp only
    rcases tracer.Extract st .TextMap (.TextMap carrier) with ⟨r | r, st1⟩ <;> rfl

/-! ## The claims -/

/-- C1 (binary codec round trip): for every carrier with distinct keys whose keys and values
are ASCII strings, `TextMapCarrierToBinary` succeeds, `TextMapCarrierFromBinary` succeeds on
its output, and the decoded carrier (again with distinct keys) holds exactly the key/value
pairs of the original: its entries are a rearrangement of the original entries and every
key looks up the same. -/
theorem C1_binary_codec_round_trip (rt : GoRuntime) (c : TextMapCarrier) (hk : NodupKeys c.entries)
    (ha : ASCIIEntries c.entries) :
    ∃ bytes decoded, TextMapCarrierToBinary rt c = .ok bytes ∧
      TextMapCarrierFromBinary bytes = .ok decoded ∧
      NodupKeys decoded.entries ∧
      decoded.entries.Perm c.entries ∧ SameEntries decoded.entries c.entries := by
  cases c with
  | nil =>
    refine ⟨ascii "null", .nil, rfl, by decide, hk, List.Perm.refl _, fun _ => rfl⟩
  | map entries =>
    simp only [TextMapCarrier.entries] at hk ha
    have hperm : (entries.insertionSort (fun a b => stringLess b.1 a.1 = false)).Perm entries :=
      List.perm_insertionSort _ _
    have hk2 : NodupKeys (entries.insertionSort (fun a b => stringLess b.1 a.1 = false)) :=
      (List.Perm.nodup_iff (hperm.map Prod.fst)).mpr hk
    have ha2 : ASCIIEntries (entries.insertionSort (fun a b => stringLess b.1 a.1 = false)) :=
      fun kv hkv => ha kv (hperm.mem_iff.mp hkv)
    refine ⟨_, .map (entries.insertionSort (fun a b => stringLess b.1 a.1 = false)), rfl, ?_,
      hk2, hperm, sameEntries_of_perm _ _ hk2 hperm⟩
    simp only [TextMapCarrierFromBinary, jsonUnmarshal, checkValid_object rt _ ha2,
      decodeTop_object rt _ ha2]
    rw [foldl_mapSet_entries _ [] (by simpa using hk2)]
    rfl

/-- Witness of C1 on a carrier with a trace identifier and a value that needs every kind of
escape. -/
theorem C1_binary_codec_round_trip_witness :
    ∃ bytes decoded,
      TextMapCarrierToBinary exampleRuntime
          (.map [(ascii "uber-trace-id", ascii "5f2c:1a:0:1"),
            (ascii "note", ascii "a<b> & \"q\" \\ \n\t") , (ascii "k", [0x01, 0x7F])]) = .ok bytes ∧
      TextMapCarrierFromBinary bytes = .ok decoded ∧
      NodupKeys decoded.entries ∧
      decoded.entries.Perm
        (TextMapCarrier.map [(ascii "uber-trace-id", ascii "5f2c:1a:0:1"),
            (ascii "note", ascii "a<b> & \"q\" \\ \n\t"), (ascii "k", [0x01, 0x7F])]).entries ∧
      SameEntries decoded.entries
        (TextMapCarrier.map [(ascii "uber-trace-id", ascii "5f2c:1a:0:1"),
            (ascii "note", ascii "a<b> & \"q\" \\ \n\t"), (ascii "k", [0x01, 0x7F])]).entries :=
  C1_binary_codec_round_trip exampleRuntime _ (by decide) (by decide)

/-- Counterexample to C2: on the one-entry carrier `a ↦ b` the header list written by
`TextMapCarrierToKafkaMessageHeaders` has no `tracing` entry, and
`TextMapCarrierFromKafkaHeaders` fails on it instead of returning the carrier. -/
theorem C2_counterexample :
    (TextMapCarrier.map [(ascii "a", ascii "b")]).entries ≠ [] ∧
    TextMapCarrierToKafkaMessageHeaders (.map [(ascii "a", ascii "b")])
      = [{ Key := ascii "a", Value := ascii "b" }] ∧
    TextMapCarrierFromKafkaHeaders exampleRuntime
        (TextMapCarrierToKafkaMessageHeaders (.map [(ascii "a", ascii "b")]))
      = .error (.errorsNew "no tracing headers provided") ∧
    TextMapCarrierFromKafkaHeaders exampleRuntime
        (TextMapCarrierToKafkaMessageHeaders (.map [(ascii "a", ascii "b")]))
      ≠ .ok (.map [(ascii "a", ascii "b")]) := by
  decide

/-- C2 as amended (message-queue round trip of the implemented pair): for every non-empty
carrier with distinct keys, `TextMapCarrierFromKafkaMessageHeaders` applied to the output of
`TextMapCarrierToKafkaMessageHeaders` returns the carrier, while
`TextMapCarrierFromKafkaHeaders` applied to that output fails with `no tracing headers
provided` whenever no key of the carrier equals `tracing` under case folding. -/
theorem C2_message_queue_round_trip (rt : GoRuntime) (c : TextMapCarrier)
    (hne : c.entries ≠ []) (hk : NodupKeys c.entries) :
    TextMapCarrierToKafkaMessageHeaders c ≠ [] ∧
      TextMapCarrierFromKafkaMessageHeaders (TextMapCarrierToKafkaMessageHeaders c)
        = .map c.entries ∧
      ((∀ kv ∈ c.entries, EqualFold rt kv.1 tracingKey = false) →
        TextMapCarrierFromKafkaHeaders rt (TextMapCarrierToKafkaMessageHeaders c)
          = .error (.errorsNew "no tracing headers provided")) := by
  refine ⟨?_, fromKafkaMessageHeaders_toKafkaMessageHeaders c hk, fun h => ?_⟩
  · rw [toKafkaMessageHeaders_eq]
    simpa using hne
  apply fromKafkaHeaders_none
  intro x hx
  rw [toKafkaMessageHeaders_eq] at hx
  obtain ⟨kv, hkv, rfl⟩ := List.mem_map.mp hx
  exact h kv hkv

/-- Witness of the amended C2 on a carrier with two entries. -/
theorem C2_message_queue_round_trip_witness :
    TextMapCarrierFromKafkaMessageHeaders
        (TextMapCarrierToKafkaMessageHeaders
          (.map [(ascii "uber-trace-id", ascii "5f2c:1a:0:1"), (ascii "k", ascii "v")]))
      = .map [(ascii "uber-trace-id", ascii "5f2c:1a:0:1"), (ascii "k", ascii "v")] ∧
    TextMapCarrierFromKafkaHeaders exampleRuntime
        (TextMapCarrierToKafkaMessageHeaders
          (.map [(ascii "uber-trace-id", ascii "5f2c:1a:0:1"), (ascii "k", ascii "v")]))
      = .error (.errorsNew "no tracing headers provided") :=
  ⟨(C2_message_queue_round_trip exampleRuntime
      (.map [(ascii "uber-trace-id", ascii "5f2c:1a:0:1"), (ascii "k", ascii "v")])
      (by decide) (by decide)).2.1,
    (C2_message_queue_round_trip exampleRuntime
      (.map [(ascii "uber-trace-id", ascii "5f2c:1a:0:1"), (ascii "k", ascii "v")])
      (by decide) (by decide)).2.2 (by decide)⟩

/-- C3: on a header list in which no key equals `tracing` under case folding (the empty
list included), `TextMapCarrierFromKafkaHeaders` returns no carrier and fails with the
error `no tracing headers provided`, whatever the values are. -/
theorem C3_no_tracing_header (rt : GoRuntime) (headers : List Header)
    (h : ∀ x ∈ headers, EqualFold rt x.Key tracingKey = false) :
    TextMapCarrierFromKafkaHeaders rt headers
      = .error (.errorsNew "no tracing headers provided") := by
  induction headers with
  | nil => rfl
  | cons x rest ih =>
    have hx : EqualFold rt x.Key tracingKey = false := h x (List.mem_cons_self _ _)
    rw [TextMapCarrierFromKafkaHeaders, hx]
    exact ih (fun y hy => h y (List.mem_cons_of_mem _ hy))

/-- Witness of C3: two headers with other keys, one of them with a well-formed value. -/
theorem C3_no_tracing_header_witness :
    TextMapCarrierFromKafkaHeaders exampleRuntime
        [{ Key := ascii "trace", Value := ascii "\x7b\"a\":\"b\"\x7d" },
          { Key := ascii "tracing-id", Value := [0xFF] }]
      = .error (.errorsNew "no tracing headers provided") :=
  C3_no_tracing_header exampleRuntime _ (by decide)

/-- C4 (first match wins): when no header of `before` has a key equal to `tracing` under
case folding and the header `x` has one, the result of `TextMapCarrierFromKafkaHeaders` on
`before ++ x :: after` is the result of `TextMapCarrierFromBinary` on the value of `x`,
carrier or error; `before` and `after` play no part. -/
theorem C4_first_match_wins (rt : GoRuntime) (before after : List Header) (x : Header)
    (hb : ∀ y ∈ before, EqualFold rt y.Key tracingKey = false)
    (hx : EqualFold rt x.Key tracingKey = true) :
    TextMapCarrierFromKafkaHeaders rt (before ++ x :: after)
      = TextMapCarrierFromBinary x.Value := by
  induction before with
  | nil =>
    simp only [List.nil_append, TextMapCarrierFromKafkaHeaders, hx, if_true]
    cases TextMapCarrierFromBinary x.Value <;> rfl
  | cons y rest ih =>
    have hy := hb y (List.mem_cons_self _ _)
    simp only [List.cons_append, TextMapCarrierFromKafkaHeaders, hy]
    exact ih (fun z hz => hb z (List.mem_cons_of_mem _ hz))

/-- Witness of C4: the first matching header is spelled `TRACING`; a later `tracing` header
with another value is not read. -/
theorem C4_first_match_wins_witness :
    TextMapCarrierFromKafkaHeaders exampleRuntime
        ([{ Key := ascii "k", Value := ascii "v" }] ++
          { Key := ascii "TRACING", Value := ascii "\x7b\"a\":\"b\"\x7d" } ::
          [{ Key := ascii "tracing", Value := ascii "\x7b\"a\":\"c\"\x7d" }])
      = TextMapCarrierFromBinary (ascii "\x7b\"a\":\"b\"\x7d") :=
  C4_first_match_wins exampleRuntime _ _
    { Key := ascii "TRACING", Value := ascii "\x7b\"a\":\"b\"\x7d" } (by decide) (by decide)

/-- Counterexample to C5: for the carrier `a ↦ b`, which the binary codec encodes as
`{"a":"b"}`, the header list is the single entry `a ↦ b`, not an entry `tracing` with the
encoding as value; for the empty carrier the list is empty. -/
theorem C5_counterexample :
    TextMapCarrierToBinary exampleRuntime (.map [(ascii "a", ascii "b")]) = .ok (ascii "\x7b\"a\":\"b\"\x7d") ∧
    TextMapCarrierToKafkaMessageHeaders (.map [(ascii "a", ascii "b")])
      = [{ Key := ascii "a", Value := ascii "b" }] ∧
    TextMapCarrierToKafkaMessageHeaders (.map [(ascii "a", ascii "b")])
      ≠ [{ Key := tracingKey, Value := ascii "\x7b\"a\":\"b\"\x7d" }] ∧
    TextMapCarrierToBinary exampleRuntime (.map []) = .ok (ascii "\x7b\x7d") ∧
    TextMapCarrierToKafkaMessageHeaders (.map []) = [] := by
  decide

/-- C5 as amended: for every carrier, `TextMapCarrierToKafkaMessageHeaders` returns one
header per entry of the carrier, in iteration order, with the entry's key as key and the
bytes of the entry's value as value; the binary codec is not applied, and a header has the
key `tracing` only when the carrier has an entry with that key and that value. -/
theorem C5_headers_per_entry (c : TextMapCarrier) :
    TextMapCarrierToKafkaMessageHeaders c
        = c.entries.map (fun kv => { Key := kv.1, Value := kv.2 }) ∧
      ∀ h ∈ TextMapCarrierToKafkaMessageHeaders c,
        h.Key = tracingKey → (tracingKey, h.Value) ∈ c.entries := by
  refine ⟨toKafkaMessageHeaders_eq c, fun h hh hkey => ?_⟩
  rw [toKafkaMessageHeaders_eq] at hh
  obtain ⟨kv, hkv, rfl⟩ := List.mem_map.mp hh
  simp only at hkey
  rw [← hkey]
  exact hkv

/-- Why the keys are taken in lower case, as the RPC library returns them: `md.Get` looks up
the lower-cased key, so for a map with the key `Trace-Id` the lookup misses and the index
panics. -/
theorem metadata_mixed_case_key :
    GetTextMapCarrierFromMetaData exampleRuntime
        (contextWithMD [(ascii "Trace-Id", [ascii "a"])])
      = .error (.indexOutOfRange 0 0) := by
  decide

/-- C6 (RPC first value wins): when the context carries no incoming metadata the carrier is
empty; when it carries the metadata `md` (distinct lower-case keys, as the RPC library
returns them) and every key has a non-empty value list, `GetTextMapCarrierFromMetaData`
returns the carrier that has the keys of `md` and maps each key to the first entry of its
value list. -/
theorem C6_first_value_wins {Span : Type} (rt : GoRuntime) (ctx : Context Span) :
    (ctx.incomingMD = none → GetTextMapCarrierFromMetaData rt ctx = .ok (.map [])) ∧
    (∀ md, ctx.incomingMD = some md → NodupKeys md →
      (∀ kv ∈ md, ToLower rt kv.1 = kv.1) → (∀ kv ∈ md, kv.2 ≠ []) →
      GetTextMapCarrierFromMetaData rt ctx = .ok (.map (md.map firstValue)) ∧
        (md.map firstValue).map Prod.fst = md.map Prod.fst ∧
        ∀ key values, (key, values) ∈ md →
          mapGet (md.map firstValue) key = values.head?) := by
  constructor
  · intro h
    simp [GetTextMapCarrierFromMetaData, FromIncomingContext, h]
  · intro md h hnd hlow hne
    refine ⟨?_, ?_, ?_⟩
    · simp only [GetTextMapCarrierFromMetaData, FromIncomingContext, h, MD.Copy]
      exact metadataLoop_ok rt md hnd hlow md [] rfl hne
    · simp [firstValue, Function.comp_def]
    · intro key values hmem
      exact mapGet_map_firstValue md hnd key values hmem (hne _ hmem)

/-- Witness of C6: the metadata `trace-id ↦ [a, b]` gives the carrier `trace-id ↦ a`. -/
theorem C6_first_value_wins_witness :
    GetTextMapCarrierFromMetaData exampleRuntime
        (contextWithMD [(ascii "trace-id", [ascii "a", ascii "b"])])
      = .ok (.map [(ascii "trace-id", ascii "a")]) :=
  ((C6_first_value_wins exampleRuntime
    (contextWithMD [(ascii "trace-id", [ascii "a", ascii "b"])])).2
    [(ascii "trace-id", [ascii "a", ascii "b"])] rfl (by decide) (by decide) (by decide)).1

/-- C7 (shared fallback contract), with the case in which it fails: each of the three
operations that obtains its carrier calls the tracer's `Extract` once on that carrier and
then `StartSpan` once, without options when the extraction failed and with the
server-side child option of the extracted context otherwise, and returns that span inside
the caller's context.  `StartHttpServerTracerSpan` and `StartKafkaConsumerTracerSpan`
always do so; `StartGrpcServerTracerSpan` does so when `GetTextMapCarrierFromMetaData`
returns a carrier and panics, starting no span, when that function panics. -/
theorem C7_fallback_contract {σ SpanContext Span : Type} (rt : GoRuntime)
    (tracer : Tracer σ SpanContext Span) (st : σ) (operationName : GoString) :
    (∀ c : EchoContext Span,
      StartHttpServerTracerSpan tracer st c operationName
        = specSpanBootstrap tracer
            (tracer.Extract st .HTTPHeaders (.HTTPHeadersCarrier c.Header))
            c.RequestContext operationName) ∧
    (∀ (ctx : Context Span) (headers : List Header),
      StartKafkaConsumerTracerSpan tracer st ctx headers operationName
        = specSpanBootstrap tracer
            (tracer.Extract st .TextMap
              (.TextMap (TextMapCarrierFromKafkaMessageHeaders headers)))
            ctx operationName) ∧
    (∀ (ctx : Context Span) (carrier : TextMapCarrier),
      GetTextMapCarrierFromMetaData rt ctx = .ok carrier →
      StartGrpcServerTracerSpan rt tracer st ctx operationName
        = .ok (specSpanBootstrap tracer (tracer.Extract st .TextMap (.TextMap carrier)) ctx
            operationName)) ∧
    (∀ (ctx : Context Span) (p : GoPanic),
      GetTextMapCarrierFromMetaData rt ctx = .error p →
      StartGrpcServerTracerSpan rt tracer st ctx operationName = .error p) := by
  refine ⟨fun c => bootstrap_http tracer st c operationName,
    fun ctx headers => bootstrap_kafka tracer st ctx headers operationName, ?_, ?_⟩
  · intro ctx carrier h
    rw [bootstrap_grpc, h]
  · intro ctx p h
    rw [bootstrap_grpc, h]

/-- Witness of C7 at the failing input: with the incoming metadata `k ↦ []` the carrier
cannot be built and `StartGrpcServerTracerSpan` panics with an index out of range. -/
theorem C7_fallback_contract_witness :
    GetTextMapCarrierFromMetaData exampleRuntime (contextWithMD [(ascii "k", [])])
        = .error (.indexOutOfRange 0 0) ∧
      StartGrpcServerTracerSpan exampleRuntime exampleTracer []
          (contextWithMD [(ascii "k", [])]) (ascii "rpc.Call")
        = .error (.indexOutOfRange 0 0) :=
  ⟨by decide,
    (C7_fallback_contract exampleRuntime exampleTracer [] (ascii "rpc.Call")).2.2.2
      (contextWithMD [(ascii "k", [])]) (.indexOutOfRange 0 0) (by decide)⟩

/-- Counterexample to C8.  The header `tracing` carries the encoding of the carrier
`a ↦ b`, which `TextMapCarrierFromKafkaHeaders` decodes; yet the carrier that
`StartKafkaConsumerTracerSpan` hands to the tracer is `tracing ↦ {"a":"b"}`, and the span
is a child of the context extracted from that carrier.  And on a header list without a
`tracing` entry, on which `TextMapCarrierFromKafkaHeaders` fails, the span is started as a
child, not as a root span. -/
theorem C8_counterexample :
    TextMapCarrierToBinary exampleRuntime (.map [(ascii "a", ascii "b")]) = .ok (ascii "\x7b\"a\":\"b\"\x7d") ∧
    TextMapCarrierFromKafkaHeaders exampleRuntime
        [{ Key := tracingKey, Value := ascii "\x7b\"a\":\"b\"\x7d" }]
      = .ok (.map [(ascii "a", ascii "b")]) ∧
    StartKafkaConsumerTracerSpan exampleTracer [] emptyContext
        [{ Key := tracingKey, Value := ascii "\x7b\"a\":\"b\"\x7d" }] (ascii "consume")
      = (({ incomingMD := none,
            activeSpan := some (ascii "consume",
              [.RPCServerOption (.map [(tracingKey, ascii "\x7b\"a\":\"b\"\x7d")])]) },
          (ascii "consume", [.RPCServerOption (.map [(tracingKey, ascii "\x7b\"a\":\"b\"\x7d")])])),
          [Carrier.TextMap (.map [(tracingKey, ascii "\x7b\"a\":\"b\"\x7d")])]) ∧
    (StartKafkaConsumerTracerSpan exampleTracer [] emptyContext
        [{ Key := tracingKey, Value := ascii "\x7b\"a\":\"b\"\x7d" }] (ascii "consume")).2
      ≠ [Carrier.TextMap (.map [(ascii "a", ascii "b")])] ∧
    TextMapCarrierFromKafkaHeaders exampleRuntime
        [{ Key := ascii "uber-trace-id", Value := ascii "5f2c:1a:0:1" }]
      = .error (.errorsNew "no tracing headers provided") ∧
    (StartKafkaConsumerTracerSpan exampleTracer [] emptyContext
        [{ Key := ascii "uber-trace-id", Value := ascii "5f2c:1a:0:1" }] (ascii "consume")).1.2
      = (ascii "consume",
          [.RPCServerOption (.map [(ascii "uber-trace-id", ascii "5f2c:1a:0:1")])]) ∧
    (StartKafkaConsumerTracerSpan exampleTracer [] emptyContext
        [{ Key := ascii "uber-trace-id", Value := ascii "5f2c:1a:0:1" }] (ascii "consume")).1.2
      ≠ (ascii "consume", []) :=
  ⟨by decide, by decide, by decide, by decide, by decide, by decide, by decide⟩

/-- C8 as amended: `StartKafkaConsumerTracerSpan` builds its carrier with
`TextMapCarrierFromKafkaMessageHeaders`.  For the header list that
`TextMapCarrierToKafkaMessageHeaders` writes for a carrier `c` with distinct keys, the
carrier handed to the tracer's `Extract` is `c`: when the tracer reconstructs a context
from it the span is started as a server-side child of that context, and when the
extraction fails a root span is started. -/
theorem C8_consumer_span_carrier {σ SpanContext Span : Type}
    (tracer : Tracer σ SpanContext Span) (st : σ) (ctx : Context Span)
    (operationName : GoString) (c : TextMapCarrier) (hk : NodupKeys c.entries) :
    (∀ spanCtx st1, tracer.Extract st .TextMap (.TextMap (.map c.entries)) = (.ok spanCtx, st1) →
      StartKafkaConsumerTracerSpan tracer st ctx (TextMapCarrierToKafkaMessageHeaders c)
          operationName
        = ((ContextWithSpan ctx
              (tracer.StartSpan st1 operationName [.RPCServerOption spanCtx]).1,
            (tracer.StartSpan st1 operationName [.RPCServerOption spanCtx]).1),
          (tracer.StartSpan st1 operationName [.RPCServerOption spanCtx]).2)) ∧
    (∀ err st1, tracer.Extract st .TextMap (.TextMap (.map c.entries)) = (.error err, st1) →
      StartKafkaConsumerTracerSpan tracer st ctx (TextMapCarrierToKafkaMessageHeaders c)
          operationName
        = ((ContextWithSpan ctx (tracer.StartSpan st1 operationName []).1,
            (tracer.StartSpan st1 operationName []).1),
          (tracer.StartSpan st1 operationName []).2)) := by
  constructor
  · intro spanCtx st1 h
    rw [bootstrap_kafka, fromKafkaMessageHeaders_toKafkaMessageHeaders c hk, h]
    rfl
  · intro err st1 h
    rw [bootstrap_kafka, fromKafkaMessageHeaders_toKafkaMessageHeaders c hk, h]
    rfl

/-- Witness of the amended C8: the headers written for `uber-trace-id ↦ 5f2c:1a:0:1` give a
span that is a child of the context extracted from that very carrier. -/
theorem C8_consumer_span_carrier_witness :
    StartKafkaConsumerTracerSpan exampleTracer [] emptyContext
        (TextMapCarrierToKafkaMessageHeaders
          (.map [(ascii "uber-trace-id", ascii "5f2c:1a:0:1")])) (ascii "consume")
      = ((ContextWithSpan emptyContext
            (ascii "consume",
              [.RPCServerOption (.map [(ascii "uber-trace-id", ascii "5f2c:1a:0:1")])]),
          (ascii "consume",
            [.RPCServerOption (.map [(ascii "uber-trace-id", ascii "5f2c:1a:0:1")])])),
        [Carrier.TextMap (.map [(ascii "uber-trace-id", ascii "5f2c:1a:0:1")])]) :=
  (C8_consumer_span_carrier exampleTracer [] emptyContext (ascii "consume")
    (.map [(ascii "uber-trace-id", ascii "5f2c:1a:0:1")]) (by decide)).1
    (.map [(ascii "uber-trace-id", ascii "5f2c:1a:0:1")])
    [Carrier.TextMap (.map [(ascii "uber-trace-id", ascii "5f2c:1a:0:1")])] (by decide)

/-- C9 fails on the code: when some key of the incoming metadata has an empty value list
(keys distinct, that key in lower case), `GetTextMapCarrierFromMetaData` panics with an
index out of range at `md.Get(key)[0]`, and so does `StartGrpcServerTracerSpan` for every
tracer. -/
theorem C9_empty_value_list_panics {σ SpanContext Span : Type} (rt : GoRuntime)
    (ctx : Context Span) (md : MD) (key : GoString) (h : ctx.incomingMD = some md)
    (hnd : NodupKeys md) (hmem : (key, []) ∈ md) (hlow : ToLower rt key = key) :
    GetTextMapCarrierFromMetaData rt ctx = .error (.indexOutOfRange 0 0) ∧
      ∀ (tracer : Tracer σ SpanContext Span) (st : σ) (operationName : GoString),
        StartGrpcServerTracerSpan rt tracer st ctx operationName
          = .error (.indexOutOfRange 0 0) := by
  have hget : GetTextMapCarrierFromMetaData rt ctx = .error (.indexOutOfRange 0 0) := by
    simp only [GetTextMapCarrierFromMetaData, FromIncomingContext, h, MD.Copy]
    exact metadataLoop_panic rt md md _ ⟨(key, []), hmem, mdGet_of_mem rt md hnd key [] hmem hlow⟩
  refine ⟨hget, fun tracer st operationName => ?_⟩
  rw [bootstrap_grpc, hget]

/-- Witness of C9's failure: the metadata `trace-id ↦ [a]`, `k ↦ []`. -/
theorem C9_empty_value_list_panics_witness :
    GetTextMapCarrierFromMetaData exampleRuntime
        (contextWithMD [(ascii "trace-id", [ascii "a"]), (ascii "k", [])])
      = .error (.indexOutOfRange 0 0) ∧
    StartGrpcServerTracerSpan exampleRuntime exampleTracer []
        (contextWithMD [(ascii "trace-id", [ascii "a"]), (ascii "k", [])]) (ascii "rpc.Call")
      = .error (.indexOutOfRange 0 0) :=
  ⟨(@C9_empty_value_list_panics (List Carrier) ExampleSpanContext ExampleSpan
      exampleRuntime (contextWithMD [(ascii "trace-id", [ascii "a"]), (ascii "k", [])])
      [(ascii "trace-id", [ascii "a"]), (ascii "k", [])] (ascii "k") rfl (by decide)
      (by decide) (by decide)).1,
    (C9_empty_value_list_panics exampleRuntime
      (contextWithMD [(ascii "trace-id", [ascii "a"]), (ascii "k", [])])
      [(ascii "trace-id", [ascii "a"]), (ascii "k", [])] (ascii "k") rfl (by decide)
      (by decide) (by decide)).2 exampleTracer [] (ascii "rpc.Call")⟩

/-- C10 (per-key header round trip): for every carrier with distinct keys, the empty one
included, `TextMapCarrierToKafkaMessageHeaders` writes exactly one header per key (as many
headers as entries, pairwise distinct keys, each value the bytes of the carrier's value),
`TextMapCarrierFromKafkaMessageHeaders` applied to that list returns the carrier, and in
whatever order the map is iterated the result holds the same key/value pairs. -/
theorem C10_per_key_round_trip (c : TextMapCarrier) (hk : NodupKeys c.entries) :
    (TextMapCarrierToKafkaMessageHeaders c).length = c.entries.length ∧
    ((TextMapCarrierToKafkaMessageHeaders c).map Header.Key).Nodup ∧
    (TextMapCarrierToKafkaMessageHeaders c).map (fun h => (h.Key, h.Value)) = c.entries ∧
    TextMapCarrierFromKafkaMessageHeaders (TextMapCarrierToKafkaMessageHeaders c)
      = .map c.entries ∧
    ∀ other : TextMapCarrier, other.entries.Perm c.entries →
      SameEntries
        (TextMapCarrierFromKafkaMessageHeaders
          (TextMapCarrierToKafkaMessageHeaders other)).entries c.entries := by
  refine ⟨?_, ?_, ?_, fromKafkaMessageHeaders_toKafkaMessageHeaders c hk, ?_⟩
  · simp [toKafkaMessageHeaders_eq]
  · rw [toKafkaMessageHeaders_eq]
    simpa [NodupKeys, Function.comp_def] using hk
  · simp [toKafkaMessageHeaders_eq, Function.comp_def]
  · intro other hp
    have hk2 : NodupKeys other.entries := (List.Perm.nodup_iff (hp.map Prod.fst)).mpr hk
    rw [fromKafkaMessageHeaders_toKafkaMessageHeaders other hk2]
    exact sameEntries_of_perm _ _ hk2 hp

/-- Witness of C10 on a carrier with two entries. -/
theorem C10_per_key_round_trip_witness :
    TextMapCarrierToKafkaMessageHeaders
        (.map [(ascii "uber-trace-id", ascii "5f2c:1a:0:1"), (ascii "k", [0xFF])])
      = [{ Key := ascii "uber-trace-id", Value := ascii "5f2c:1a:0:1" },
          { Key := ascii "k", Value := [0xFF] }] ∧
    TextMapCarrierFromKafkaMessageHeaders
        (TextMapCarrierToKafkaMessageHeaders
          (.map [(ascii "uber-trace-id", ascii "5f2c:1a:0:1"), (ascii "k", [0xFF])]))
      = .map [(ascii "uber-trace-id", ascii "5f2c:1a:0:1"), (ascii "k", [0xFF])] :=
  ⟨by decide,
    (C10_per_key_round_trip
      (.map [(ascii "uber-trace-id", ascii "5f2c:1a:0:1"), (ascii "k", [0xFF])])
      (by decide)).2.2.2.1⟩

end Tracing
